import Mathlib

/-!
# Ray-history continuity state machine of the DAGMC / MCNP bridge

Shallow embedding of the static state and the Fortran-callable functions of
`src/mcnp/mcnp_funcs.cpp` that implement the ray-history cache
(`dagmctrack_`, `dagmcnewcel_`, `dagmc_surf_reflection_`, the bank and slot
functions, ...), and of the loop of `write_lcad_old` that writes the tally cards.

* C++ `int` values are `Int`; where the source computes with them the machine
  arithmetic is explicit (`to_unsigned`, the overflow of `*max_pbl+1`).
* C++ `double` values are an arbitrary type `D` with the operations the source
  uses (`DoubleOps`); nothing is assumed about them, so `==` need not be
  reflexive (NaN) and `*` may round or overflow.
* The geometry engine (`moab::DagMC`, reached through the global `DAG`) is a
  record of functions (`DagMC`); in/out arguments are returned as results.
* `exit(EXIT_FAILURE)` is an explicit outcome carrying the static state at the
  moment of the exit.
-/

namespace DagMcnp

/-! ## Data model -/

/-- Entity handles of the geometry engine (`moab::EntityHandle`, an unsigned integer);
the source compares them with `0`. -/
abbrev EntityHandle := Nat

/-- Error codes of the geometry engine (`moab::ErrorCode`). -/
abbrev ErrorCode := Nat

/-- The success code `moab::MB_SUCCESS`. -/
def MB_SUCCESS : ErrorCode := 0

/-- The operations on C++ `double` values that the source uses: the literals `0` and
`2.0`, `operator==` and `operator*`; `lt` is `operator<`, used to state bounds. -/
class DoubleOps (D : Type) where
  zero : D
  two : D
  eq : D → D → Bool
  mul : D → D → D
  lt : D → D → Bool

/-- A C++ array `double[3]`. -/
structure Vec3 (D : Type) where
  c0 : D
  c1 : D
  c2 : D
deriving DecidableEq, Repr

/-- Modelled from the spec: the class `DagMC::RayHistory` is declared in `DagMC.hpp`,
which is not among the sources. It is the accumulator of recently tested facets, a
value that is copied as a whole; `prev_facets` lists the recorded intersections,
oldest first. -/
structure RayHistory where
  prev_facets : List EntityHandle
deriving DecidableEq, Repr

namespace RayHistory

/-- Modelled from the spec: `reset()` discards all state. -/
def reset (_h : RayHistory) : RayHistory := ⟨[]⟩

/-- Modelled from the spec: `rollback_last_intersection()` undoes the most recent
recorded intersection without discarding earlier state. -/
def rollback_last_intersection (h : RayHistory) : RayHistory := ⟨h.prev_facets.dropLast⟩

/-- Modelled from the spec: `size()`, the diagnostic length. -/
def size (h : RayHistory) : Nat := h.prev_facets.length

end RayHistory

/-- The file-scope statics of `mcnp_funcs.cpp` (lines 37-45), together with the text
written to `std::cerr`. -/
structure State (D : Type) where
  history : RayHistory
  last_nps : Int
  last_uvw : Vec3 D
  history_bank : List RayHistory
  pblcm_history_stack : List RayHistory
  visited_surface : Bool
  use_dist_limit : Bool
  dist_limit : D
  cerr : List String

/-- The values of the statics at program start: the initialisers of lines 37-45
(`dist_limit` has no initialiser and is zero-initialised as a static). -/
def initial_state {D : Type} [DoubleOps D] : State D :=
  { history := ⟨[]⟩
    last_nps := 0
    last_uvw := ⟨DoubleOps.zero, DoubleOps.zero, DoubleOps.zero⟩
    history_bank := []
    pblcm_history_stack := []
    visited_surface := false
    use_dist_limit := false
    dist_limit := DoubleOps.zero
    cerr := [] }

/-- What a call `DAG->ray_fire(vol, point, dir, next_surf, next_surf_dist, &history,
user_dist_limit)` leaves behind: its return code, its two output arguments and the
history it was given, as updated by the call. -/
structure RayFireResult (D : Type) where
  rval : ErrorCode
  next_surf : EntityHandle
  next_surf_dist : D
  history : RayHistory

/-- The methods of the geometry engine `moab::DagMC` that the ray-history functions
call. `DagMC.hpp` is not among the sources, so they are parameters.
`next_vol surf vol newvol` receives the initial value of its output argument and
returns the return code with the final value. `reset_to_last_intersection` is the
method of that name of `DagMC::RayHistory`, as the history it leaves: which of the
recorded intersections it keeps is decided by the engine and is not assumed here. -/
structure DagMC (D : Type) where
  entity_by_index : Int → Int → EntityHandle
  index_by_handle : EntityHandle → Int
  ray_fire : EntityHandle → Vec3 D → Vec3 D → RayHistory → D → RayFireResult D
  next_vol : EntityHandle → EntityHandle → EntityHandle → ErrorCode × EntityHandle
  reset_to_last_intersection : RayHistory → RayHistory

/-! ## `dagmctrack_` -/

/-- Lines 882-910 of `dagmctrack_`: the value of the static `history` after the
"detect streaming or reflecting situations" block, given the handle `prev` of the
previous surface. -/
def track_history {D : Type} [DoubleOps D] (s : State D) (prev : EntityHandle)
    (uuu vvv www : D) (nps : Int) : RayHistory :=
  if s.last_nps ≠ nps ∨ prev = 0 then
    -- not streaming or reflecting: reset history
    s.history.reset
  else if DoubleOps.eq s.last_uvw.c0 uuu && DoubleOps.eq s.last_uvw.c1 vvv
      && DoubleOps.eq s.last_uvw.c2 www then
    -- streaming: use history without change unless a surface was not visited
    if !s.visited_surface then s.history.rollback_last_intersection else s.history
  else
    -- not streaming or reflecting
    s.history.reset

/-- The distance limit that `dagmctrack_` passes to `ray_fire`:
`(use_dist_limit ? dist_limit : 0)`. -/
def track_limit {D : Type} [DoubleOps D] (s : State D) : D :=
  if s.use_dist_limit then s.dist_limit else DoubleOps.zero

/-- Lines 870-918 of `dagmctrack_`: the single call of `DAG->ray_fire`. -/
def track_query {D : Type} [DoubleOps D] (dag : DagMC D) (s : State D) (ih : Int)
    (uuu vvv www xxx yyy zzz : D) (jsu nps : Int) : RayFireResult D :=
  let vol := dag.entity_by_index 3 ih
  let prev := dag.entity_by_index 2 jsu
  let point : Vec3 D := ⟨xxx, yyy, zzz⟩
  let dir : Vec3 D := ⟨uuu, vvv, www⟩
  dag.ray_fire vol point dir (track_history s prev uuu vvv www nps) (track_limit s)

/-- How a call of `dagmctrack_` ends: `exit(EXIT_FAILURE)` with the statics as they are
at that moment, or a return with the new statics and the outputs `*dls` and `*jap`. -/
inductive TrackResult (D : Type) where
  | exit_failure (s : State D)
  | returned (s : State D) (dls : D) (jap : Int)

/-- The function `dagmctrack_` (lines 865-971), without the optional trace output. -/
def dagmctrack_ {D : Type} [DoubleOps D] (dag : DagMC D) (s : State D) (ih : Int)
    (uuu vvv www xxx yyy zzz huge : D) (jsu nps : Int) : TrackResult D :=
  let dir : Vec3 D := ⟨uuu, vvv, www⟩
  let r := track_query dag s ih uuu vvv www xxx yyy zzz jsu nps
  if r.rval ≠ MB_SUCCESS then
    TrackResult.exit_failure
      { s with history := r.history, cerr := s.cerr ++ ["DAGMC: failed in ray_fire"] }
  else
    let s1 : State D :=
      { s with history := r.history, last_uvw := dir, last_nps := nps,
               visited_surface := false }
    -- if next_surf exists, then next_surf_dist will be nearer than dist_limit (if any)
    if r.next_surf ≠ 0 then
      TrackResult.returned s1 r.next_surf_dist (dag.index_by_handle r.next_surf)
    else if s.use_dist_limit then
      -- Dist limit on: return a number bigger than dist_limit
      TrackResult.returned s1 (DoubleOps.mul s.dist_limit DoubleOps.two) 0
    else
      -- Dist limit off: return huge value, triggering lost particle
      TrackResult.returned s1 huge 0

/-! ## `dagmcnewcel_`, `dagmc_surf_reflection_` and the settings -/

/-- The function `dagmcnewcel_` (lines 786-808): the new statics and the final value of
the output `*iap`; `iap` is the value `*iap` had before the call. -/
def dagmcnewcel_ {D : Type} (dag : DagMC D) (s : State D) (jsu icl iap : Int) :
    State D × Int :=
  let surf := dag.entity_by_index 2 jsu
  let vol := dag.entity_by_index 3 icl
  let newvol : EntityHandle := 0
  let rn := dag.next_vol surf vol newvol
  let rval := rn.1
  let newvol := rn.2
  let step : Int × List String :=
    if rval ≠ MB_SUCCESS then
      (-1, s.cerr ++ ["DAGMC: error calling next_vol, newcel_ returning -1"])
    else (iap, s.cerr)
  let _iap := step.1
  let iap := dag.index_by_handle newvol
  ({ s with visited_surface := true, cerr := step.2 }, iap)

/-- The function `dagmc_surf_reflection_` (lines 810-847). -/
def dagmc_surf_reflection_ {D : Type} [DoubleOps D] (dag : DagMC D) (s : State D)
    (uuu vvv www : D) (verify_dir_change : Int) : State D :=
  -- a surface was visited
  let s1 : State D := { s with visited_surface := true }
  let update : Bool :=
    if verify_dir_change ≠ 0 then
      if DoubleOps.eq s1.last_uvw.c0 uuu && DoubleOps.eq s1.last_uvw.c1 vvv
          && DoubleOps.eq s1.last_uvw.c2 www then false else true
    else true
  if update then
    { s1 with last_uvw := ⟨uuu, vvv, www⟩,
              history := dag.reset_to_last_intersection s1.history }
  else s1

/-- Lines 825-829 of `dagmc_surf_reflection_` again: the value of the local `update`,
which decides whether `last_uvw` is written and `reset_to_last_intersection` is
applied (`surf_reflection_eq_update`). -/
def surf_reflection_update {D : Type} [DoubleOps D] (s : State D) (uuu vvv www : D)
    (verify_dir_change : Int) : Bool :=
  if verify_dir_change ≠ 0 then
    if DoubleOps.eq s.last_uvw.c0 uuu && DoubleOps.eq s.last_uvw.c1 vvv
        && DoubleOps.eq s.last_uvw.c2 www then false else true
  else true

/-- The function `dagmc_setdis_` (lines 1067-1073). -/
def dagmc_setdis_ {D : Type} (s : State D) (d : D) : State D :=
  { s with dist_limit := d }

/-- The effect of `dagmc_set_settings_` (lines 1075-1089) on the statics: a nonzero
`*fort_use_dist_limit` switches the distance limit on; nothing switches it off. -/
def dagmc_set_settings_ {D : Type} (s : State D) (fort_use_dist_limit : Int) : State D :=
  if fort_use_dist_limit ≠ 0 then { s with use_dist_limit := true } else s

/-- Modelled from the spec: `DagMC::ray_fire` is defined outside the sources; its
contract is "if a next surface is found, its distance is guaranteed to be less than
distanceLimit when a limit is active". At the C++ interface the limit is the last
argument, for which `dagmctrack_` passes 0 when there is none; a limit is taken to be
active when that argument is positive. -/
def ray_fire_honours_limit {D : Type} [DoubleOps D] (dag : DagMC D) : Prop :=
  ∀ (vol : EntityHandle) (point dir : Vec3 D) (h : RayHistory) (lim : D),
    DoubleOps.lt DoubleOps.zero lim = true →
    (dag.ray_fire vol point dir h lim).rval = MB_SUCCESS →
    (dag.ray_fire vol point dir h lim).next_surf ≠ 0 →
    DoubleOps.lt (dag.ray_fire vol point dir h lim).next_surf_dist lim = true

/-- The statics a call of `dagmctrack_` leaves, whichever way it ends. -/
def TrackResult.state {D : Type} : TrackResult D → State D
  | TrackResult.exit_failure s => s
  | TrackResult.returned s _ _ => s

/-- The function `dagmc_particle_terminate_` (lines 849-856). -/
def dagmc_particle_terminate_ {D : Type} (s : State D) : State D :=
  { s with history := s.history.reset }

/-! ## The bank, the slot table and the initialisation -/

/-- The conversion `(unsigned)*nbnk` of an `int` to the 32-bit `unsigned`, as a value
to compare with `history_bank.size()`. -/
def to_unsigned (nbnk : Int) : Nat := (nbnk % 2 ^ 32).toNat

/-- The function `dagmc_bank_push_` (lines 973-983). -/
def dagmc_bank_push_ {D : Type} (s : State D) (nbnk : Int) : State D :=
  let cerr :=
    if to_unsigned nbnk ≠ s.history_bank.length then
      s.cerr ++ ["bank push size mismatch: F" ++ toString nbnk ++ " C"
        ++ toString s.history_bank.length]
    else s.cerr
  { s with history_bank := s.history_bank ++ [s.history], cerr := cerr }

/-- The function `dagmc_bank_usetop_` (lines 985-997); `getLast?` is `back()` and is
`none` exactly when `history_bank.size()` is 0. -/
def dagmc_bank_usetop_ {D : Type} (s : State D) : State D :=
  match s.history_bank.getLast? with
  | some top => { s with history := top }
  | none =>
    { s with cerr := s.cerr ++ ["dagmc_bank_usetop_() called without bank history!"] }

/-- The function `dagmc_bank_pop_` (lines 999-1014); `dropLast` is `pop_back()` and
leaves an empty bank empty, as the guard `if( history_bank.size() )` does. -/
def dagmc_bank_pop_ {D : Type} (s : State D) (nbnk : Int) : State D :=
  let cerr :=
    if to_unsigned nbnk ≠ s.history_bank.length then
      s.cerr ++ ["bank pop size mismatch: F" ++ toString nbnk ++ " C"
        ++ toString s.history_bank.length]
    else s.cerr
  if s.history_bank.length ≠ 0 then
    { s with history_bank := s.history_bank.dropLast, cerr := cerr }
  else { s with cerr := cerr }

/-- The function `dagmc_bank_clear_` (lines 1016-1022). -/
def dagmc_bank_clear_ {D : Type} (s : State D) : State D :=
  { s with history_bank := [] }

/-- The function `dagmc_savpar_` (lines 1024-1030). The unchecked `operator[]` is
defined only for an index inside the vector; a negative `*n` converts to an index
beyond any vector. Outside that range the behaviour is undefined: `none`. -/
def dagmc_savpar_ {D : Type} (s : State D) (n : Int) : Option (State D) :=
  if 0 ≤ n ∧ n.toNat < s.pblcm_history_stack.length then
    some { s with pblcm_history_stack := s.pblcm_history_stack.set n.toNat s.history }
  else none

/-- The function `dagmc_getpar_` (lines 1032-1038), with the same treatment of the
unchecked `operator[]`. -/
def dagmc_getpar_ {D : Type} (s : State D) (n : Int) : Option (State D) :=
  if 0 ≤ n then
    match s.pblcm_history_stack[n.toNat]? with
    | some h => some { s with history := h }
    | none => none
  else none

/-- The call `v.resize(n)` of `std::vector`: the first `n` elements are kept and new
elements are default-constructed (empty) histories. -/
def vector_resize (v : List RayHistory) (n : Nat) : List RayHistory :=
  v.take n ++ List.replicate (n - v.length) ⟨[]⟩

/-- How a call of `dagmcinit_` ends: `exit(EXIT_FAILURE)`, undefined behaviour (signed
overflow of `*max_pbl+1`), an abort on the `std::length_error` that `resize` throws
for a size beyond `max_size()`, or a return with the new statics. -/
inductive InitResult (D : Type) where
  | exit_failure (s : State D)
  | undefined_behaviour
  | length_error
  | returned (s : State D)

/-- The function `dagmcinit_` (lines 48-99) as far as the statics go. The return codes
of `DAG->load_file` and `DAG->init_OBBTree` are parameters; `max_pbl` is an `int`, so
`*max_pbl+1` is computed in `int` (undefined when it exceeds `2 ^ 31 - 1`) and then
converted to the 64-bit `size_type` of `resize`; a negative sum converts to a size of
at least `2 ^ 64 - 2 ^ 31`, beyond `max_size()`, for which `resize` throws. -/
def dagmcinit_ {D : Type} (load_file_rval init_OBBTree_rval : ErrorCode) (s : State D)
    (cfile : String) (max_pbl : Int) : InitResult D :=
  if load_file_rval ≠ MB_SUCCESS then
    InitResult.exit_failure
      { s with cerr := s.cerr ++ ["DAGMC failed to read input file: " ++ cfile] }
  else if init_OBBTree_rval ≠ MB_SUCCESS then
    InitResult.exit_failure
      { s with cerr := s.cerr
          ++ ["DAGMC failed to initialize geometry and create OBB tree"] }
  else if max_pbl + 1 > 2 ^ 31 - 1 then
    InitResult.undefined_behaviour
  else if max_pbl + 1 < 0 then
    InitResult.length_error
  else
    InitResult.returned
      { s with pblcm_history_stack :=
          vector_resize s.pblcm_history_stack ((max_pbl + 1) % 2 ^ 64).toNat }

/-- A call that the host transport loop makes into the ray-history functions, with its
arguments. -/
inductive Call (D : Type) where
  | track (ih : Int) (uuu vvv www xxx yyy zzz huge : D) (jsu nps : Int)
  | surf_reflection (uuu vvv www : D) (verify_dir_change : Int)
  | particle_terminate
  | newcel (jsu icl iap : Int)
  | bank_push (nbnk : Int)
  | bank_usetop
  | bank_pop (nbnk : Int)
  | bank_clear
  | savpar (n : Int)
  | getpar (n : Int)

/-- The statics after one call; `none` when the call does not return (`dagmctrack_`
exits, or a slot index is outside the table). -/
def Call.run {D : Type} [DoubleOps D] (dag : DagMC D) (s : State D) :
    Call D → Option (State D)
  | Call.track ih uuu vvv www xxx yyy zzz huge jsu nps =>
    match dagmctrack_ dag s ih uuu vvv www xxx yyy zzz huge jsu nps with
    | TrackResult.returned s1 _ _ => some s1
    | TrackResult.exit_failure _ => none
  | Call.surf_reflection uuu vvv www verify_dir_change =>
    some (dagmc_surf_reflection_ dag s uuu vvv www verify_dir_change)
  | Call.particle_terminate => some (dagmc_particle_terminate_ s)
  | Call.newcel jsu icl iap => some (dagmcnewcel_ dag s jsu icl iap).1
  | Call.bank_push nbnk => some (dagmc_bank_push_ s nbnk)
  | Call.bank_usetop => some (dagmc_bank_usetop_ s)
  | Call.bank_pop nbnk => some (dagmc_bank_pop_ s nbnk)
  | Call.bank_clear => some (dagmc_bank_clear_ s)
  | Call.savpar n => dagmc_savpar_ s n
  | Call.getpar n => dagmc_getpar_ s n

/-- The statics after a sequence of calls made one after the other; `none` when one of
them does not return. -/
def run_calls {D : Type} [DoubleOps D] (dag : DagMC D) :
    State D → List (Call D) → Option (State D)
  | s, [] => some s
  | s, c :: cs =>
    match c.run dag s with
    | some s1 => run_calls dag s1 cs
    | none => none

/-- The three outcomes of the "detect streaming or reflecting situations" block of
`dagmctrack_` (lines 882-910): `history.reset()`, `history.rollback_last_intersection()`
followed by use of the history, or use of the history as it is. -/
inductive TrackAction where
  | reset
  | rollback
  | keep
deriving DecidableEq, Repr

/-- What an outcome of the decision block does to the history. -/
def TrackAction.apply : TrackAction → RayHistory → RayHistory
  | TrackAction.reset, h => h.reset
  | TrackAction.rollback, h => h.rollback_last_intersection
  | TrackAction.keep, h => h

/-- Lines 882-910 of `dagmctrack_` again, as the branch that is taken; `track_history`
is this branch applied to the history (`track_history_eq_action`). -/
def track_action {D : Type} [DoubleOps D] (s : State D) (prev : EntityHandle)
    (uuu vvv www : D) (nps : Int) : TrackAction :=
  if s.last_nps ≠ nps ∨ prev = 0 then
    TrackAction.reset
  else if DoubleOps.eq s.last_uvw.c0 uuu && DoubleOps.eq s.last_uvw.c1 vvv
      && DoubleOps.eq s.last_uvw.c2 www then
    if !s.visited_surface then TrackAction.rollback else TrackAction.keep
  else
    TrackAction.reset

/-- The statics `s1` hold the same tracking fields and distance-limit setting as `s`:
`last_nps`, `last_uvw`, `visited_surface`, `use_dist_limit` and `dist_limit`. -/
def same_tracking {D : Type} (s s1 : State D) : Prop :=
  s1.last_nps = s.last_nps ∧ s1.last_uvw = s.last_uvw ∧
  s1.visited_surface = s.visited_surface ∧ s1.use_dist_limit = s.use_dist_limit ∧
  s1.dist_limit = s.dist_limit

/-! ## The tally cards of `write_lcad_old` -/

/-- The value `std::string::npos`, the largest `size_t` (64 bits). -/
def npos : Nat := 2 ^ 64 - 1

/-- The call `s.rfind(c, pos)` of `std::string`: the last index `i ≤ pos` at which `s`
holds `c`, and `npos` when there is none. -/
def rfind (s : List Char) (c : Char) (pos : Nat) : Nat :=
  match (List.range (pos + 1)).reverse.find? (fun i => s[i]? == some c) with
  | some i => i
  | none => npos

/-- The text written to the stream `lcadfile`: the lines ended by `std::endl`, and the
text written after the last `std::endl`. -/
structure LcadFile where
  lines : List (List Char)
  cur : List Char
deriving DecidableEq, Repr

/-- Lines 623-636 of `write_lcad_old`: the text of the stream `tally_card`, from the
card that `get_tallyspec` returned and the ids of the tallied entities. -/
def tally_card (card : List Char) (ids : List Int) : List Char :=
  card ++ (ids.map (fun id => " ".toList ++ (toString id).toList)).flatten ++ " T".toList

/-- Lines 639-647 of `write_lcad_old`: the loop that writes `cardstr` to `lcadfile`
"without exceeding 80 chars", run for at most `fuel` passes of its body; `none` when
the loop is still running after them. `take pos` is `substr(0,pos)` and `drop pos` is
`erase(0,pos)`, also for `pos = npos`. -/
def write_tally_card : Nat → LcadFile → List Char → Option LcadFile
  | 0, lcadfile, cardstr =>
    if cardstr.length > 72 then none
    else some ⟨lcadfile.lines ++ [lcadfile.cur ++ cardstr], []⟩
  | fuel + 1, lcadfile, cardstr =>
    if cardstr.length > 72 then
      let pos := rfind cardstr (Char.ofNat 32) 72
      write_tally_card fuel
        ⟨lcadfile.lines ++ [lcadfile.cur ++ cardstr.take pos ++ " &".toList],
          "     ".toList⟩
        (cardstr.drop pos)
    else some ⟨lcadfile.lines ++ [lcadfile.cur ++ cardstr], []⟩

/-! ## A concrete interpretation for evaluation -/

/-- Doubles for evaluation: NaN, or a finite number with an integer value. IEEE-754
binary64 arithmetic is exact on integers of magnitude below `2 ^ 53`, which is all the
examples use. -/
inductive IntDouble where
  | nan
  | num (z : Int)
deriving DecidableEq, Repr

instance : DoubleOps IntDouble where
  zero := IntDouble.num 0
  two := IntDouble.num 2
  eq a b :=
    match a, b with
    | IntDouble.num x, IntDouble.num y => decide (x = y)
    | _, _ => false
  mul a b :=
    match a, b with
    | IntDouble.num x, IntDouble.num y => IntDouble.num (x * y)
    | _, _ => IntDouble.nan
  lt a b :=
    match a, b with
    | IntDouble.num x, IntDouble.num y => decide (x < y)
    | _, _ => false

/-- The `reset_to_last_intersection` of the evaluation geometries: of the recorded
intersections the last one is kept. -/
def keep_last_intersection (h : RayHistory) : RayHistory :=
  match h.prev_facets.getLast? with
  | some f => ⟨[f]⟩
  | none => ⟨[]⟩

/-- A small geometry for evaluation. Index `i` names the entity with handle `i`, and no
entity has index 0. From a volume with a nonzero handle a ray along `(1, 0, 0)` meets
the surface with handle `vol + 10` at distance 1, unless a positive limit of at most 1
is in force; any other ray meets nothing; a query from handle 0 fails. Behind surface
`surf` lies volume `vol + 1`, except that surface 9 has no volume behind it. -/
def demoDag : DagMC IntDouble where
  entity_by_index := fun _dim idx => idx.toNat
  index_by_handle := fun h => (h : Int)
  ray_fire := fun vol _point dir h lim =>
    if vol = 0 then ⟨1, 0, IntDouble.nan, h⟩
    else if DoubleOps.lt (IntDouble.num 0) lim && !DoubleOps.lt (IntDouble.num 1) lim then
      ⟨MB_SUCCESS, 0, IntDouble.nan, h⟩
    else if dir = ⟨IntDouble.num 1, IntDouble.num 0, IntDouble.num 0⟩ then
      ⟨MB_SUCCESS, vol + 10, IntDouble.num 1, ⟨h.prev_facets ++ [vol + 10]⟩⟩
    else ⟨MB_SUCCESS, 0, IntDouble.nan, h⟩
  next_vol := fun surf vol newvol =>
    if surf = 0 ∨ surf = 9 then (1, newvol) else (MB_SUCCESS, vol + 1)
  reset_to_last_intersection := keep_last_intersection

/-- A state in flight for evaluation: particle 5 moving along `(1, 0, 0)`, two recorded
intersections, no crossing confirmed since the last `dagmctrack_`. -/
def demoState : State IntDouble :=
  { history := ⟨[11, 12]⟩
    last_nps := 5
    last_uvw := ⟨IntDouble.num 1, IntDouble.num 0, IntDouble.num 0⟩
    history_bank := []
    pblcm_history_stack := [⟨[]⟩, ⟨[]⟩]
    visited_surface := false
    use_dist_limit := false
    dist_limit := IntDouble.num 0
    cerr := [] }

/-- A second geometry for evaluation, which differs from `demoDag` in `ray_fire` only:
every ray, whatever its direction and limit, meets the surface with handle `vol + 10` at
distance 1, and the facet is recorded in the history. -/
def demoDagDense : DagMC IntDouble where
  entity_by_index := demoDag.entity_by_index
  index_by_handle := demoDag.index_by_handle
  ray_fire := fun vol _point _dir h _lim =>
    ⟨MB_SUCCESS, vol + 10, IntDouble.num 1, ⟨h.prev_facets ++ [vol + 10]⟩⟩
  next_vol := demoDag.next_vol
  reset_to_last_intersection := demoDag.reset_to_last_intersection

/-- A third geometry for evaluation, which differs from `demoDag` in
`reset_to_last_intersection` only: every call discards the oldest recorded
intersection, so that each application shows in the history. -/
def demoDagTrim : DagMC IntDouble where
  entity_by_index := demoDag.entity_by_index
  index_by_handle := demoDag.index_by_handle
  ray_fire := demoDag.ray_fire
  next_vol := demoDag.next_vol
  reset_to_last_intersection := fun h => ⟨h.prev_facets.drop 1⟩

/-- The card that `get_tallyspec` returns for the specifier `1.cell.flux.` followed by
75 letters `x`: `f14:` and the 75 letters, 79 characters without a blank. -/
def longCard : List Char := "f14:".toList ++ List.replicate 75 (Char.ofNat 120)

/-- The card that `get_tallyspec` returns for the specifier `1.cell.flux.n`, a blank and
73 letters `x`: `f14:n`, the blank and the 73 letters, 79 characters. -/
def blankCard : List Char :=
  "f14:n ".toList ++ List.replicate 73 (Char.ofNat 120)

/-! ## Facts shared by the theorems -/

theorem reset_eq_empty (h : RayHistory) : h.reset = ⟨[]⟩ := rfl

/-- The statics after a `dagmctrack_` that returns. -/
theorem dagmctrack_returned_state {D : Type} [DoubleOps D] (dag : DagMC D) (s : State D)
    (ih : Int) (uuu vvv www xxx yyy zzz huge : D) (jsu nps : Int)
    (s1 : State D) (dls : D) (jap : Int)
    (h : dagmctrack_ dag s ih uuu vvv www xxx yyy zzz huge jsu nps
      = TrackResult.returned s1 dls jap) :
    s1 = { s with history := (track_query dag s ih uuu vvv www xxx yyy zzz jsu nps).history,
                  last_uvw := ⟨uuu, vvv, www⟩, last_nps := nps,
                  visited_surface := false } := by
  unfold dagmctrack_ at h
  simp only at h
  split_ifs at h <;> (injection h with h1 _ _; exact h1.symm)

/-- `dagmctrack_` returns whenever its query succeeds. -/
theorem dagmctrack_returns {D : Type} [DoubleOps D] (dag : DagMC D) (s : State D)
    (ih : Int) (uuu vvv www xxx yyy zzz huge : D) (jsu nps : Int)
    (h : (track_query dag s ih uuu vvv www xxx yyy zzz jsu nps).rval = MB_SUCCESS) :
    ∃ dls jap, dagmctrack_ dag s ih uuu vvv www xxx yyy zzz huge jsu nps
      = TrackResult.returned
          { s with history := (track_query dag s ih uuu vvv www xxx yyy zzz jsu nps).history,
                   last_uvw := ⟨uuu, vvv, www⟩, last_nps := nps,
                   visited_surface := false } dls jap := by
  unfold dagmctrack_
  simp only [h, ne_eq, not_true_eq_false, if_false]
  split_ifs <;> exact ⟨_, _, rfl⟩

/-! ## The decision taken by `dagmctrack_` before its query -/

/-- C1: when the particle id differs from `last_nps`, or the handle looked up for `*jsu`
is 0, the history after the decision block is the empty history and the query of
`dagmctrack_` is `ray_fire` on the empty history, for every direction, stored direction,
`visited_surface` flag and prior history. -/
theorem track_new_particle_resets {D : Type} [DoubleOps D] (dag : DagMC D) (s : State D)
    (ih : Int) (uuu vvv www xxx yyy zzz : D) (jsu nps : Int)
    (h : s.last_nps ≠ nps ∨ dag.entity_by_index 2 jsu = 0) :
    track_history s (dag.entity_by_index 2 jsu) uuu vvv www nps = ⟨[]⟩ ∧
    track_query dag s ih uuu vvv www xxx yyy zzz jsu nps
      = dag.ray_fire (dag.entity_by_index 3 ih) ⟨xxx, yyy, zzz⟩ ⟨uuu, vvv, www⟩ ⟨[]⟩
          (track_limit s) := by
  have hh : track_history s (dag.entity_by_index 2 jsu) uuu vvv www nps = ⟨[]⟩ := by
    unfold track_history
    rw [if_pos h]
    rfl
  refine ⟨hh, ?_⟩
  unfold track_query
  simp only [hh]

/-- Witness of C1 on the scenario of the specification: particle 5, no previous surface
(index 0), in a state whose history holds two intersections. -/
theorem track_new_particle_resets_witness :
    (demoState.last_nps ≠ 5 ∨ demoDag.entity_by_index 2 0 = 0) ∧
    (track_history demoState (demoDag.entity_by_index 2 0) (IntDouble.num 1)
        (IntDouble.num 0) (IntDouble.num 0) 5 = ⟨[]⟩ ∧
     track_query demoDag demoState 1 (IntDouble.num 1) (IntDouble.num 0) (IntDouble.num 0)
        (IntDouble.num 0) (IntDouble.num 0) (IntDouble.num 0) 0 5
      = demoDag.ray_fire (demoDag.entity_by_index 3 1)
          ⟨IntDouble.num 0, IntDouble.num 0, IntDouble.num 0⟩
          ⟨IntDouble.num 1, IntDouble.num 0, IntDouble.num 0⟩ ⟨[]⟩
          (track_limit demoState)) :=
  ⟨Or.inr rfl,
   track_new_particle_resets demoDag demoState 1 (IntDouble.num 1) (IntDouble.num 0)
     (IntDouble.num 0) (IntDouble.num 0) (IntDouble.num 0) (IntDouble.num 0) 0 5
     (Or.inr rfl)⟩

/-- C2: same particle id, an existing previous surface and a direction that `==` finds
equal to `last_uvw` in every component: the history after the decision block is the
stored history itself when `visited_surface` is set, and the stored history with
`rollback_last_intersection` applied once when it is not; the query is `ray_fire` on
that history. No reset takes place. -/
theorem track_streaming_continues {D : Type} [DoubleOps D] (dag : DagMC D) (s : State D)
    (ih : Int) (uuu vvv www xxx yyy zzz : D) (jsu nps : Int)
    (hn : s.last_nps = nps) (hp : dag.entity_by_index 2 jsu ≠ 0)
    (h0 : DoubleOps.eq s.last_uvw.c0 uuu = true)
    (h1 : DoubleOps.eq s.last_uvw.c1 vvv = true)
    (h2 : DoubleOps.eq s.last_uvw.c2 www = true) :
    track_history s (dag.entity_by_index 2 jsu) uuu vvv www nps
      = (if s.visited_surface = false then s.history.rollback_last_intersection
         else s.history) ∧
    track_query dag s ih uuu vvv www xxx yyy zzz jsu nps
      = dag.ray_fire (dag.entity_by_index 3 ih) ⟨xxx, yyy, zzz⟩ ⟨uuu, vvv, www⟩
          (if s.visited_surface = false then s.history.rollback_last_intersection
           else s.history)
          (track_limit s) := by
  have hc : ¬ (s.last_nps ≠ nps ∨ dag.entity_by_index 2 jsu = 0) := by
    rintro (h | h)
    · exact h hn
    · exact hp h
  have hh : track_history s (dag.entity_by_index 2 jsu) uuu vvv www nps
      = (if s.visited_surface = false then s.history.rollback_last_intersection
         else s.history) := by
    unfold track_history
    rw [if_neg hc]
    simp only [h0, h1, h2, Bool.and_self, if_true]
    cases s.visited_surface <;> rfl
  refine ⟨hh, ?_⟩
  unfold track_query
  simp only [hh]

/-- Witness of C2: particle 5 streams along `(1, 0, 0)` from previous surface 11. With no
crossing confirmed the last of the two recorded intersections is rolled back; with a
crossing confirmed the history is handed over as it is. -/
theorem track_streaming_continues_witness :
    (demoState.last_nps = 5 ∧ demoDag.entity_by_index 2 11 ≠ 0 ∧
      DoubleOps.eq demoState.last_uvw.c0 (IntDouble.num 1) = true ∧
      DoubleOps.eq demoState.last_uvw.c1 (IntDouble.num 0) = true ∧
      DoubleOps.eq demoState.last_uvw.c2 (IntDouble.num 0) = true) ∧
    track_history demoState (demoDag.entity_by_index 2 11) (IntDouble.num 1)
        (IntDouble.num 0) (IntDouble.num 0) 5 = ⟨[11]⟩ ∧
    track_history { demoState with visited_surface := true } (demoDag.entity_by_index 2 11)
        (IntDouble.num 1) (IntDouble.num 0) (IntDouble.num 0) 5 = ⟨[11, 12]⟩ :=
  ⟨⟨rfl, by decide, rfl, rfl, rfl⟩,
   (track_streaming_continues demoDag demoState 1 (IntDouble.num 1) (IntDouble.num 0)
      (IntDouble.num 0) (IntDouble.num 0) (IntDouble.num 0) (IntDouble.num 0) 11 5
      rfl (by decide) rfl rfl rfl).1.trans rfl,
   (track_streaming_continues demoDag { demoState with visited_surface := true } 1
      (IntDouble.num 1) (IntDouble.num 0) (IntDouble.num 0) (IntDouble.num 0)
      (IntDouble.num 0) (IntDouble.num 0) 11 5 rfl (by decide) rfl rfl rfl).1.trans rfl⟩

/-- The decision block resets the history when the particle id is the stored one, a
previous surface exists and some component of the direction fails `==` against
`last_uvw`. -/
theorem track_history_of_changed_direction {D : Type} [DoubleOps D] (s : State D)
    (prev : EntityHandle) (uuu vvv www : D) (nps : Int)
    (hn : s.last_nps = nps) (hp : prev ≠ 0)
    (hd : DoubleOps.eq s.last_uvw.c0 uuu = false ∨ DoubleOps.eq s.last_uvw.c1 vvv = false
      ∨ DoubleOps.eq s.last_uvw.c2 www = false) :
    track_history s prev uuu vvv www nps = ⟨[]⟩ := by
  have hc : ¬ (s.last_nps ≠ nps ∨ prev = 0) := by
    rintro (h | h)
    · exact h hn
    · exact hp h
  have hb : (DoubleOps.eq s.last_uvw.c0 uuu && DoubleOps.eq s.last_uvw.c1 vvv
      && DoubleOps.eq s.last_uvw.c2 www) = false := by
    rcases hd with h | h | h <;> simp [h]
  unfold track_history
  rw [if_neg hc]
  simp only [hb]
  rfl

/-- C3: same particle id, an existing previous surface and a direction of which `==`
finds at least one component different from `last_uvw`: the history after the decision
block is the empty history, whatever `visited_surface` is, and the query is `ray_fire`
on the empty history. In particular (second part): when a `dagmctrack_` call with
direction `(u1, v1, w1)` has returned with statics `s1`, the next call for the same
particle with a direction differing from `(u1, v1, w1)` in some component resets. -/
theorem track_direction_change_resets {D : Type} [DoubleOps D] (dag : DagMC D)
    (s : State D) (ih : Int) (uuu vvv www xxx yyy zzz : D) (jsu nps : Int)
    (hn : s.last_nps = nps) (hp : dag.entity_by_index 2 jsu ≠ 0)
    (hd : DoubleOps.eq s.last_uvw.c0 uuu = false ∨ DoubleOps.eq s.last_uvw.c1 vvv = false
      ∨ DoubleOps.eq s.last_uvw.c2 www = false) :
    (track_history s (dag.entity_by_index 2 jsu) uuu vvv www nps = ⟨[]⟩ ∧
     track_query dag s ih uuu vvv www xxx yyy zzz jsu nps
      = dag.ray_fire (dag.entity_by_index 3 ih) ⟨xxx, yyy, zzz⟩ ⟨uuu, vvv, www⟩ ⟨[]⟩
          (track_limit s)) ∧
    (∀ (s0 s1 : State D) (ih0 jsu0 : Int) (u1 v1 w1 x0 y0 z0 huge0 dls0 : D) (jap0 : Int),
      dagmctrack_ dag s0 ih0 u1 v1 w1 x0 y0 z0 huge0 jsu0 nps
        = TrackResult.returned s1 dls0 jap0 →
      (DoubleOps.eq u1 uuu = false ∨ DoubleOps.eq v1 vvv = false
        ∨ DoubleOps.eq w1 www = false) →
      track_history s1 (dag.entity_by_index 2 jsu) uuu vvv www nps = ⟨[]⟩ ∧
      track_query dag s1 ih uuu vvv www xxx yyy zzz jsu nps
        = dag.ray_fire (dag.entity_by_index 3 ih) ⟨xxx, yyy, zzz⟩ ⟨uuu, vvv, www⟩ ⟨[]⟩
            (track_limit s1)) := by
  have hh := track_history_of_changed_direction s (dag.entity_by_index 2 jsu) uuu vvv www
    nps hn hp hd
  refine ⟨⟨hh, ?_⟩, ?_⟩
  · unfold track_query
    simp only [hh]
  · intro s0 s1 ih0 jsu0 u1 v1 w1 x0 y0 z0 huge0 dls0 jap0 hret hd1
    have hs1 := dagmctrack_returned_state dag s0 ih0 u1 v1 w1 x0 y0 z0 huge0 jsu0 nps s1
      dls0 jap0 hret
    have hn1 : s1.last_nps = nps := by rw [hs1]
    have hu1 : s1.last_uvw = ⟨u1, v1, w1⟩ := by rw [hs1]
    have hh1 := track_history_of_changed_direction s1 (dag.entity_by_index 2 jsu) uuu vvv
      www nps hn1 hp (by rw [hu1]; exact hd1)
    refine ⟨hh1, ?_⟩
    unfold track_query
    simp only [hh1]

/-- Witness of C3: particle 5, last seen moving along `(1, 0, 0)`, is tracked along
`(0, 1, 0)` from previous surface 11; and the same as the second of two calls, the
first of which streams along `(1, 0, 0)` and finds surface 11. -/
theorem track_direction_change_resets_witness :
    (demoState.last_nps = 5 ∧ demoDag.entity_by_index 2 11 ≠ 0 ∧
      (DoubleOps.eq demoState.last_uvw.c0 (IntDouble.num 0) = false ∨
       DoubleOps.eq demoState.last_uvw.c1 (IntDouble.num 1) = false ∨
       DoubleOps.eq demoState.last_uvw.c2 (IntDouble.num 0) = false)) ∧
    track_history demoState (demoDag.entity_by_index 2 11) (IntDouble.num 0)
      (IntDouble.num 1) (IntDouble.num 0) 5 = ⟨[]⟩ ∧
    dagmctrack_ demoDag demoState 1 (IntDouble.num 1) (IntDouble.num 0) (IntDouble.num 0)
        (IntDouble.num 0) (IntDouble.num 0) (IntDouble.num 0) (IntDouble.num 1000) 11 5
      = TrackResult.returned { demoState with history := ⟨[11, 11]⟩ } (IntDouble.num 1) 11 ∧
    track_history { demoState with history := ⟨[11, 11]⟩ } (demoDag.entity_by_index 2 11)
      (IntDouble.num 0) (IntDouble.num 1) (IntDouble.num 0) 5 = ⟨[]⟩ :=
  ⟨⟨rfl, by decide, Or.inl rfl⟩,
   (track_direction_change_resets demoDag demoState 1 (IntDouble.num 0) (IntDouble.num 1)
      (IntDouble.num 0) (IntDouble.num 0) (IntDouble.num 0) (IntDouble.num 0) 11 5
      rfl (by decide) (Or.inl rfl)).1.1,
   rfl,
   ((track_direction_change_resets demoDag demoState 1 (IntDouble.num 0) (IntDouble.num 1)
      (IntDouble.num 0) (IntDouble.num 0) (IntDouble.num 0) (IntDouble.num 0) 11 5
      rfl (by decide) (Or.inl rfl)).2 demoState { demoState with history := ⟨[11, 11]⟩ }
      1 11 (IntDouble.num 1) (IntDouble.num 0) (IntDouble.num 0) (IntDouble.num 0)
      (IntDouble.num 0) (IntDouble.num 0) (IntDouble.num 1000) (IntDouble.num 1) 11
      rfl (Or.inl rfl)).1⟩

/-! ## The statics after `dagmctrack_` -/

/-- C4: after a `dagmctrack_` whose query succeeds the call returns, `last_uvw` is the
direction passed, `last_nps` is the particle id passed and `visited_surface` is false,
whichever branch the decision block took and whether or not a surface was found. -/
theorem track_updates_tracking_fields {D : Type} [DoubleOps D] (dag : DagMC D)
    (s : State D) (ih : Int) (uuu vvv www xxx yyy zzz huge : D) (jsu nps : Int)
    (h : (track_query dag s ih uuu vvv www xxx yyy zzz jsu nps).rval = MB_SUCCESS) :
    ∃ s1 dls jap, dagmctrack_ dag s ih uuu vvv www xxx yyy zzz huge jsu nps
        = TrackResult.returned s1 dls jap ∧
      s1.last_uvw = ⟨uuu, vvv, www⟩ ∧ s1.last_nps = nps ∧ s1.visited_surface = false := by
  obtain ⟨dls, jap, hr⟩ := dagmctrack_returns dag s ih uuu vvv www xxx yyy zzz huge jsu nps h
  exact ⟨_, dls, jap, hr, rfl, rfl, rfl⟩

/-- Witness of C4: particle 6 enters volume 1 along `(0, 1, 0)` with the crossing flag
set; the query succeeds without finding a surface. -/
theorem track_updates_tracking_fields_witness :
    (track_query demoDag { demoState with visited_surface := true } 1 (IntDouble.num 0)
        (IntDouble.num 1) (IntDouble.num 0) (IntDouble.num 0) (IntDouble.num 0)
        (IntDouble.num 0) 11 6).rval = MB_SUCCESS ∧
    ∃ s1 dls jap, dagmctrack_ demoDag { demoState with visited_surface := true } 1
        (IntDouble.num 0) (IntDouble.num 1) (IntDouble.num 0) (IntDouble.num 0)
        (IntDouble.num 0) (IntDouble.num 0) (IntDouble.num 99) 11 6
        = TrackResult.returned s1 dls jap ∧
      s1.last_uvw = ⟨IntDouble.num 0, IntDouble.num 1, IntDouble.num 0⟩ ∧ s1.last_nps = 6 ∧
      s1.visited_surface = false :=
  ⟨rfl,
   track_updates_tracking_fields demoDag { demoState with visited_surface := true } 1
     (IntDouble.num 0) (IntDouble.num 1) (IntDouble.num 0) (IntDouble.num 0)
     (IntDouble.num 0) (IntDouble.num 0) (IntDouble.num 99) 11 6 rfl⟩

/-! ## `dagmcnewcel_` -/

/-- The value `dagmcnewcel_` leaves in `*iap` is always `index_by_handle` of what
`next_vol` left in `newvol`: the `-1` stored after a failed lookup is overwritten. -/
theorem dagmcnewcel_iap {D : Type} (dag : DagMC D) (s : State D) (jsu icl iap : Int) :
    (dagmcnewcel_ dag s jsu icl iap).2
      = dag.index_by_handle
          (dag.next_vol (dag.entity_by_index 2 jsu) (dag.entity_by_index 3 icl) 0).2 := rfl

/-- C5 (the code at a failing input): surface 9 of the evaluation geometry has no
volume behind it, so `next_vol` fails; `dagmcnewcel_` announces `-1` on `std::cerr`, yet
the value it hands back in `*iap` is `index_by_handle (0) = 0`, the index lookup of the
untouched `newvol`, and not `-1`. -/
theorem dagmcnewcel_failed_lookup_overwrites_minus_one :
    (demoDag.next_vol (demoDag.entity_by_index 2 9) (demoDag.entity_by_index 3 1) 0).1
      ≠ MB_SUCCESS ∧
    (dagmcnewcel_ demoDag demoState 9 1 7).2 = 0 ∧
    (dagmcnewcel_ demoDag demoState 9 1 7).2 ≠ -1 ∧
    (dagmcnewcel_ demoDag demoState 9 1 7).1.cerr
      = ["DAGMC: error calling next_vol, newcel_ returning -1"] := by
  refine ⟨by decide, rfl, by decide, rfl⟩

/-- C6: when `next_vol` succeeds and leaves the volume `V` in `newvol`, `dagmcnewcel_`
sets `visited_surface`, hands back the index of `V` in `*iap` and changes nothing else:
the history, `last_uvw`, `last_nps`, the bank, the slot table and the distance limit
are as before. -/
theorem dagmcnewcel_success {D : Type} (dag : DagMC D) (s : State D) (jsu icl iap : Int)
    (V : EntityHandle)
    (h : dag.next_vol (dag.entity_by_index 2 jsu) (dag.entity_by_index 3 icl) 0
      = (MB_SUCCESS, V)) :
    dagmcnewcel_ dag s jsu icl iap
      = ({ s with visited_surface := true }, dag.index_by_handle V) := by
  unfold dagmcnewcel_
  simp only [h, ne_eq, not_true_eq_false, if_false]

/-- Witness of C6: behind surface 11, seen from volume 1, lies volume 2. -/
theorem dagmcnewcel_success_witness :
    demoDag.next_vol (demoDag.entity_by_index 2 11) (demoDag.entity_by_index 3 1) 0
      = (MB_SUCCESS, 2) ∧
    dagmcnewcel_ demoDag demoState 11 1 7
      = ({ demoState with visited_surface := true }, demoDag.index_by_handle 2) :=
  ⟨rfl, dagmcnewcel_success demoDag demoState 11 1 7 2 rfl⟩

/-! ## Failure of the query -/

/-- C7: `dagmctrack_` ends in `exit(EXIT_FAILURE)` exactly when its `ray_fire` call does
not return `MB_SUCCESS`. In that case there are no outputs `*dls` and `*jap`, and the
statics at the exit are the ones before the call except for `history`, which is what
the one `ray_fire` call left, and the message on `std::cerr`: `last_uvw`, `last_nps`
and `visited_surface` are not updated and no further query has touched the history. -/
theorem track_fatal_iff_query_fails {D : Type} [DoubleOps D] (dag : DagMC D) (s : State D)
    (ih : Int) (uuu vvv www xxx yyy zzz huge : D) (jsu nps : Int) :
    ((∃ s1, dagmctrack_ dag s ih uuu vvv www xxx yyy zzz huge jsu nps
        = TrackResult.exit_failure s1)
      ↔ (track_query dag s ih uuu vvv www xxx yyy zzz jsu nps).rval ≠ MB_SUCCESS) ∧
    (∀ s1, dagmctrack_ dag s ih uuu vvv www xxx yyy zzz huge jsu nps
        = TrackResult.exit_failure s1 →
      s1 = { s with
              history := (track_query dag s ih uuu vvv www xxx yyy zzz jsu nps).history,
              cerr := s.cerr ++ ["DAGMC: failed in ray_fire"] } ∧
      s1.last_uvw = s.last_uvw ∧ s1.last_nps = s.last_nps ∧
      s1.visited_surface = s.visited_surface) := by
  by_cases hr : (track_query dag s ih uuu vvv www xxx yyy zzz jsu nps).rval = MB_SUCCESS
  · obtain ⟨dls, jap, hret⟩ :=
      dagmctrack_returns dag s ih uuu vvv www xxx yyy zzz huge jsu nps hr
    refine ⟨⟨?_, fun h => absurd hr h⟩, ?_⟩
    · rintro ⟨s1, h1⟩
      rw [hret] at h1
      cases h1
    · intro s1 h1
      rw [hret] at h1
      cases h1
  · have hex : dagmctrack_ dag s ih uuu vvv www xxx yyy zzz huge jsu nps
        = TrackResult.exit_failure
            { s with
                history := (track_query dag s ih uuu vvv www xxx yyy zzz jsu nps).history,
                cerr := s.cerr ++ ["DAGMC: failed in ray_fire"] } := by
      unfold dagmctrack_
      simp only [ne_eq, hr, not_false_eq_true, if_true]
    refine ⟨⟨fun _ => hr, fun _ => ⟨_, hex⟩⟩, ?_⟩
    intro s1 h1
    rw [hex] at h1
    injection h1 with h1
    subst h1
    exact ⟨rfl, rfl, rfl, rfl⟩

/-- Witness of C7: a query from volume index 0 fails in the evaluation geometry; the
call exits with the tracking fields of `demoState` and the history left by the query. -/
theorem track_fatal_iff_query_fails_witness :
    (track_query demoDag demoState 0 (IntDouble.num 0) (IntDouble.num 1) (IntDouble.num 0)
        (IntDouble.num 0) (IntDouble.num 0) (IntDouble.num 0) 11 5).rval ≠ MB_SUCCESS ∧
    (∃ s1, dagmctrack_ demoDag demoState 0 (IntDouble.num 0) (IntDouble.num 1)
        (IntDouble.num 0) (IntDouble.num 0) (IntDouble.num 0) (IntDouble.num 0)
        (IntDouble.num 99) 11 5 = TrackResult.exit_failure s1) :=
  ⟨by decide,
   (track_fatal_iff_query_fails demoDag demoState 0 (IntDouble.num 0) (IntDouble.num 1)
      (IntDouble.num 0) (IntDouble.num 0) (IntDouble.num 0) (IntDouble.num 0)
      (IntDouble.num 99) 11 5).1.2 (by decide)⟩

/-! ## The outputs of `dagmctrack_` -/

/-- When the query succeeds without a next surface, `*jap` is 0 and `*dls` is
`dist_limit * 2.0` with the limit on and `*huge` with the limit off. -/
theorem track_no_surface_outputs {D : Type} [DoubleOps D] (dag : DagMC D) (s : State D)
    (ih : Int) (uuu vvv www xxx yyy zzz huge : D) (jsu nps : Int)
    (hr : (track_query dag s ih uuu vvv www xxx yyy zzz jsu nps).rval = MB_SUCCESS)
    (hs : (track_query dag s ih uuu vvv www xxx yyy zzz jsu nps).next_surf = 0) :
    ∃ s1, dagmctrack_ dag s ih uuu vvv www xxx yyy zzz huge jsu nps
      = TrackResult.returned s1
          (if s.use_dist_limit then DoubleOps.mul s.dist_limit DoubleOps.two else huge)
          0 := by
  unfold dagmctrack_
  simp only [hr, hs, ne_eq, not_true_eq_false, if_false]
  split_ifs <;> exact ⟨_, rfl⟩

/-- C8 (the code at a failing input): the distance limit is switched on by
`dagmc_set_settings_` while `dist_limit` still has its initial value 0; a ray along
`(0, 1, 0)` in volume 1 meets nothing. `dagmctrack_` reports surface index 0 and the
distance `0 * 2.0 = 0`, which is not bigger than `dist_limit = 0`. -/
theorem track_no_surface_distance_not_above_limit :
    (dagmc_set_settings_ (initial_state : State IntDouble) 1).use_dist_limit = true ∧
    (dagmc_set_settings_ (initial_state : State IntDouble) 1).dist_limit = IntDouble.num 0 ∧
    (track_query demoDag (dagmc_set_settings_ initial_state 1) 1 (IntDouble.num 0)
        (IntDouble.num 1) (IntDouble.num 0) (IntDouble.num 0) (IntDouble.num 0)
        (IntDouble.num 0) 0 1).rval = MB_SUCCESS ∧
    (track_query demoDag (dagmc_set_settings_ initial_state 1) 1 (IntDouble.num 0)
        (IntDouble.num 1) (IntDouble.num 0) (IntDouble.num 0) (IntDouble.num 0)
        (IntDouble.num 0) 0 1).next_surf = 0 ∧
    (∃ s1, dagmctrack_ demoDag (dagmc_set_settings_ initial_state 1) 1 (IntDouble.num 0)
        (IntDouble.num 1) (IntDouble.num 0) (IntDouble.num 0) (IntDouble.num 0)
        (IntDouble.num 0) (IntDouble.num 1000) 0 1
      = TrackResult.returned s1 (IntDouble.num 0) 0) ∧
    DoubleOps.lt (dagmc_set_settings_ (initial_state : State IntDouble) 1).dist_limit
      (IntDouble.num 0) = false :=
  ⟨rfl, rfl, rfl, rfl, ⟨_, rfl⟩, rfl⟩

/-- The evaluation geometry honours every positive limit. -/
theorem demoDag_honours_limit : ray_fire_honours_limit demoDag := by
  intro vol point dir h lim hpos hr hs
  cases lim with
  | nan => exact absurd hpos (by decide)
  | num l =>
    have hl : (0 : Int) < l := by
      simpa [DoubleOps.lt, DoubleOps.zero] using hpos
    simp only [demoDag] at hr hs ⊢
    split_ifs at hr hs ⊢ with h1 h2 h3
    · simp [MB_SUCCESS] at hr
    · exact absurd rfl hs
    · simpa [DoubleOps.lt, hl] using h2
    · exact absurd rfl hs

/-- C9 (counterexample): with the limit switched on and `dist_limit` at its initial
value 0, `dagmctrack_` passes 0 to `ray_fire`, which stands for no limit; the ray along
`(1, 0, 0)` in volume 1 meets surface 11 at distance 1, in a geometry that honours
every positive limit, and the reported distance 1 is not less than `dist_limit = 0`. -/
theorem track_found_distance_not_below_zero_limit :
    ray_fire_honours_limit demoDag ∧
    (dagmc_set_settings_ (initial_state : State IntDouble) 1).use_dist_limit = true ∧
    (track_query demoDag (dagmc_set_settings_ initial_state 1) 1 (IntDouble.num 1)
        (IntDouble.num 0) (IntDouble.num 0) (IntDouble.num 0) (IntDouble.num 0)
        (IntDouble.num 0) 0 1).rval = MB_SUCCESS ∧
    (track_query demoDag (dagmc_set_settings_ initial_state 1) 1 (IntDouble.num 1)
        (IntDouble.num 0) (IntDouble.num 0) (IntDouble.num 0) (IntDouble.num 0)
        (IntDouble.num 0) 0 1).next_surf ≠ 0 ∧
    (∃ s1, dagmctrack_ demoDag (dagmc_set_settings_ initial_state 1) 1 (IntDouble.num 1)
        (IntDouble.num 0) (IntDouble.num 0) (IntDouble.num 0) (IntDouble.num 0)
        (IntDouble.num 0) (IntDouble.num 1000) 0 1
      = TrackResult.returned s1 (IntDouble.num 1) 11) ∧
    DoubleOps.lt (IntDouble.num 1)
      (dagmc_set_settings_ (initial_state : State IntDouble) 1).dist_limit = false :=
  ⟨demoDag_honours_limit, rfl, rfl, by decide, ⟨_, rfl⟩, rfl⟩

/-- C9 (amended): against a geometry engine that honours every positive limit, a
`dagmctrack_` call made with the limit on and a positive `dist_limit`, whose query
succeeds and finds a next surface, returns; the distance it reports in `*dls` is the
one `ray_fire` returned, the index in `*jap` is the one of the surface `ray_fire`
found, and that distance is less than `dist_limit`. -/
theorem track_found_distance_below_positive_limit {D : Type} [DoubleOps D] (dag : DagMC D)
    (s : State D) (ih : Int) (uuu vvv www xxx yyy zzz huge : D) (jsu nps : Int)
    (hdag : ray_fire_honours_limit dag)
    (hon : s.use_dist_limit = true)
    (hpos : DoubleOps.lt DoubleOps.zero s.dist_limit = true)
    (hr : (track_query dag s ih uuu vvv www xxx yyy zzz jsu nps).rval = MB_SUCCESS)
    (hs : (track_query dag s ih uuu vvv www xxx yyy zzz jsu nps).next_surf ≠ 0) :
    (∃ s1, dagmctrack_ dag s ih uuu vvv www xxx yyy zzz huge jsu nps
        = TrackResult.returned s1
            (track_query dag s ih uuu vvv www xxx yyy zzz jsu nps).next_surf_dist
            (dag.index_by_handle
              (track_query dag s ih uuu vvv www xxx yyy zzz jsu nps).next_surf)) ∧
    (track_query dag s ih uuu vvv www xxx yyy zzz jsu nps).next_surf_dist
      = (dag.ray_fire (dag.entity_by_index 3 ih) ⟨xxx, yyy, zzz⟩ ⟨uuu, vvv, www⟩
          (track_history s (dag.entity_by_index 2 jsu) uuu vvv www nps)
          s.dist_limit).next_surf_dist ∧
    DoubleOps.lt (track_query dag s ih uuu vvv www xxx yyy zzz jsu nps).next_surf_dist
      s.dist_limit = true := by
  have hlim : track_limit s = s.dist_limit := by
    unfold track_limit
    rw [if_pos hon]
  have hq : track_query dag s ih uuu vvv www xxx yyy zzz jsu nps
      = dag.ray_fire (dag.entity_by_index 3 ih) ⟨xxx, yyy, zzz⟩ ⟨uuu, vvv, www⟩
          (track_history s (dag.entity_by_index 2 jsu) uuu vvv www nps)
          s.dist_limit := by
    unfold track_query
    simp only [hlim]
  have hlt : DoubleOps.lt
      (track_query dag s ih uuu vvv www xxx yyy zzz jsu nps).next_surf_dist
      s.dist_limit = true := by
    have hc := hdag (dag.entity_by_index 3 ih) ⟨xxx, yyy, zzz⟩ ⟨uuu, vvv, www⟩
      (track_history s (dag.entity_by_index 2 jsu) uuu vvv www nps) s.dist_limit hpos
    rw [← hq] at hc
    exact hc hr hs
  refine ⟨⟨{ s with
      history := (track_query dag s ih uuu vvv www xxx yyy zzz jsu nps).history,
      last_uvw := ⟨uuu, vvv, www⟩, last_nps := nps, visited_surface := false }, ?_⟩,
    congrArg RayFireResult.next_surf_dist hq, hlt⟩
  unfold dagmctrack_
  simp only [hr, ne_eq, not_true_eq_false, if_false, hs, not_false_eq_true, if_true]

/-- Witness of C9 (amended): with the limit on and `dist_limit = 10`, the ray of
particle 5 along `(1, 0, 0)` in volume 1 meets surface 11 at distance 1; `dagmctrack_`
reports index 11 and distance 1, below 10. -/
theorem track_found_distance_below_positive_limit_witness :
    (ray_fire_honours_limit demoDag ∧
      (dagmc_setdis_ (dagmc_set_settings_ demoState 1) (IntDouble.num 10)).use_dist_limit
        = true ∧
      DoubleOps.lt DoubleOps.zero
        (dagmc_setdis_ (dagmc_set_settings_ demoState 1) (IntDouble.num 10)).dist_limit
        = true) ∧
    (∃ s1,
      dagmctrack_ demoDag (dagmc_setdis_ (dagmc_set_settings_ demoState 1) (IntDouble.num 10))
          1 (IntDouble.num 1) (IntDouble.num 0) (IntDouble.num 0) (IntDouble.num 0)
          (IntDouble.num 0) (IntDouble.num 0) (IntDouble.num 1000) 11 5
        = TrackResult.returned s1 (IntDouble.num 1) 11) ∧
    DoubleOps.lt (IntDouble.num 1)
      (dagmc_setdis_ (dagmc_set_settings_ demoState 1) (IntDouble.num 10)).dist_limit
      = true :=
  ⟨⟨demoDag_honours_limit, rfl, rfl⟩,
   (track_found_distance_below_positive_limit demoDag
     (dagmc_setdis_ (dagmc_set_settings_ demoState 1) (IntDouble.num 10))
     1 (IntDouble.num 1) (IntDouble.num 0) (IntDouble.num 0) (IntDouble.num 0)
     (IntDouble.num 0) (IntDouble.num 0) (IntDouble.num 1000) 11 5
     demoDag_honours_limit rfl rfl rfl (by decide)).1,
   (track_found_distance_below_positive_limit demoDag
     (dagmc_setdis_ (dagmc_set_settings_ demoState 1) (IntDouble.num 10))
     1 (IntDouble.num 1) (IntDouble.num 0) (IntDouble.num 0) (IntDouble.num 0)
     (IntDouble.num 0) (IntDouble.num 0) (IntDouble.num 1000) 11 5
     demoDag_honours_limit rfl rfl rfl (by decide)).2.2⟩

/-! ## `dagmc_surf_reflection_` -/

/-- The function `dagmc_surf_reflection_` in terms of the value of its local `update`:
when it is false only `visited_surface` is set, when it is true the direction is stored
and `reset_to_last_intersection` is applied as well. -/
theorem surf_reflection_eq_update {D : Type} [DoubleOps D] (dag : DagMC D) (s : State D)
    (uuu vvv www : D) (verify_dir_change : Int) :
    dagmc_surf_reflection_ dag s uuu vvv www verify_dir_change
      = (if surf_reflection_update s uuu vvv www verify_dir_change then
          { s with visited_surface := true, last_uvw := ⟨uuu, vvv, www⟩,
                   history := dag.reset_to_last_intersection s.history }
         else { s with visited_surface := true }) := by
  unfold dagmc_surf_reflection_ surf_reflection_update
  rfl

/-- With the direction `(NaN, 1, 0)` and verification on, the second of two calls of
`dagmc_surf_reflection_` assigns `reset_to_last_intersection (history)` to the history,
whatever the engine. -/
theorem surf_reflection_twice_nan_history (dag : DagMC IntDouble) :
    (dagmc_surf_reflection_ dag
        (dagmc_surf_reflection_ dag demoState IntDouble.nan (IntDouble.num 1)
          (IntDouble.num 0) 1)
        IntDouble.nan (IntDouble.num 1) (IntDouble.num 0) 1).history
      = dag.reset_to_last_intersection
          (dagmc_surf_reflection_ dag demoState IntDouble.nan (IntDouble.num 1)
            (IntDouble.num 0) 1).history := rfl

/-- With an engine on which every application of `reset_to_last_intersection` shows,
the second of two calls with the direction `(NaN, 1, 0)` and verification on changes
the history (from `[12]` to the empty one), while the second of two calls with the
direction `(0, 1, 0)` does not. -/
theorem surf_reflection_twice_nan_changes_history :
    (dagmc_surf_reflection_ demoDagTrim demoState IntDouble.nan (IntDouble.num 1)
        (IntDouble.num 0) 1).history = ⟨[12]⟩ ∧
    (dagmc_surf_reflection_ demoDagTrim
        (dagmc_surf_reflection_ demoDagTrim demoState IntDouble.nan (IntDouble.num 1)
          (IntDouble.num 0) 1)
        IntDouble.nan (IntDouble.num 1) (IntDouble.num 0) 1).history = ⟨[]⟩ ∧
    (dagmc_surf_reflection_ demoDagTrim
        (dagmc_surf_reflection_ demoDagTrim demoState (IntDouble.num 0) (IntDouble.num 1)
          (IntDouble.num 0) 1)
        (IntDouble.num 0) (IntDouble.num 1) (IntDouble.num 0) 1).history = ⟨[12]⟩ :=
  ⟨rfl, rfl, rfl⟩

/-- C10 (counterexample): `dagmc_surf_reflection_` is called twice in a row with the
direction `(NaN, 1, 0)` and verification on. After the first call `last_uvw` holds that
direction, yet in the second call `last_uvw[0] == *uuu` is false, so `update` stays
true: the second call is not the branch that leaves the history alone, it applies
`reset_to_last_intersection` once more. -/
theorem surf_reflection_twice_nan_updates :
    (dagmc_surf_reflection_ demoDag demoState IntDouble.nan (IntDouble.num 1)
        (IntDouble.num 0) 1).last_uvw = ⟨IntDouble.nan, IntDouble.num 1, IntDouble.num 0⟩ ∧
    surf_reflection_update
        (dagmc_surf_reflection_ demoDag demoState IntDouble.nan (IntDouble.num 1)
          (IntDouble.num 0) 1)
        IntDouble.nan (IntDouble.num 1) (IntDouble.num 0) 1 = true ∧
    dagmc_surf_reflection_ demoDag
        (dagmc_surf_reflection_ demoDag demoState IntDouble.nan (IntDouble.num 1)
          (IntDouble.num 0) 1)
        IntDouble.nan (IntDouble.num 1) (IntDouble.num 0) 1
      = { (dagmc_surf_reflection_ demoDag demoState IntDouble.nan (IntDouble.num 1)
            (IntDouble.num 0) 1) with
          visited_surface := true,
          last_uvw := ⟨IntDouble.nan, IntDouble.num 1, IntDouble.num 0⟩,
          history := demoDag.reset_to_last_intersection
            (dagmc_surf_reflection_ demoDag demoState IntDouble.nan (IntDouble.num 1)
              (IntDouble.num 0) 1).history } :=
  ⟨rfl, rfl, rfl⟩

/-- C10 (amended): when `*verify_dir_change` is nonzero and `==` finds the direction
equal to `last_uvw` in every component, `update` is false and `dagmc_surf_reflection_`
only sets `visited_surface`: the history and `last_uvw` stay as they are
(`reset_to_last_intersection` is not applied). In particular (second part), when `==`
finds every component of the direction equal to itself, a second call with the same
direction, made right after a first one from any state, has `update` false and changes
nothing at all. -/
theorem surf_reflection_same_direction_noop {D : Type} [DoubleOps D] (dag : DagMC D)
    (s : State D) (uuu vvv www : D) (verify_dir_change : Int)
    (hv : verify_dir_change ≠ 0)
    (h0 : DoubleOps.eq s.last_uvw.c0 uuu = true)
    (h1 : DoubleOps.eq s.last_uvw.c1 vvv = true)
    (h2 : DoubleOps.eq s.last_uvw.c2 www = true) :
    (surf_reflection_update s uuu vvv www verify_dir_change = false ∧
      dagmc_surf_reflection_ dag s uuu vvv www verify_dir_change
        = { s with visited_surface := true }) ∧
    (∀ (s0 : State D) (verify0 : Int),
      DoubleOps.eq uuu uuu = true → DoubleOps.eq vvv vvv = true →
      DoubleOps.eq www www = true →
      surf_reflection_update (dagmc_surf_reflection_ dag s0 uuu vvv www verify0)
          uuu vvv www verify_dir_change = false ∧
      dagmc_surf_reflection_ dag (dagmc_surf_reflection_ dag s0 uuu vvv www verify0)
          uuu vvv www verify_dir_change
        = dagmc_surf_reflection_ dag s0 uuu vvv www verify0) := by
  have key : ∀ t : State D, DoubleOps.eq t.last_uvw.c0 uuu = true →
      DoubleOps.eq t.last_uvw.c1 vvv = true → DoubleOps.eq t.last_uvw.c2 www = true →
      surf_reflection_update t uuu vvv www verify_dir_change = false ∧
      dagmc_surf_reflection_ dag t uuu vvv www verify_dir_change
        = { t with visited_surface := true } := by
    intro t e0 e1 e2
    have hu : surf_reflection_update t uuu vvv www verify_dir_change = false := by
      unfold surf_reflection_update
      simp only [hv, ne_eq, not_false_eq_true, if_true, e0, e1, e2, Bool.and_self]
    refine ⟨hu, ?_⟩
    rw [surf_reflection_eq_update, hu]
    rfl
  refine ⟨key s h0 h1 h2, ?_⟩
  intro s0 verify0 r0 r1 r2
  cases hu : surf_reflection_update s0 uuu vvv www verify0 with
  | true =>
    have hfirst : dagmc_surf_reflection_ dag s0 uuu vvv www verify0
        = { s0 with visited_surface := true, last_uvw := ⟨uuu, vvv, www⟩,
                    history := dag.reset_to_last_intersection s0.history } := by
      rw [surf_reflection_eq_update, hu]
      rfl
    rw [hfirst]
    exact key _ r0 r1 r2
  | false =>
    have hfirst : dagmc_surf_reflection_ dag s0 uuu vvv www verify0
        = { s0 with visited_surface := true } := by
      rw [surf_reflection_eq_update, hu]
      rfl
    have hb : (DoubleOps.eq s0.last_uvw.c0 uuu && DoubleOps.eq s0.last_uvw.c1 vvv
        && DoubleOps.eq s0.last_uvw.c2 www) = true := by
      unfold surf_reflection_update at hu
      by_cases hz : verify0 ≠ 0
      · rw [if_pos hz] at hu
        by_contra hb
        rw [if_neg hb] at hu
        cases hu
      · rw [if_neg hz] at hu
        cases hu
    simp only [Bool.and_eq_true] at hb
    rw [hfirst]
    exact key _ hb.1.1 hb.1.2 hb.2

/-- Witness of C10 (amended). The stored direction is `(0, 1, 0)` and two
intersections are recorded: the reflection into `(0, 1, 0)` with verification leaves
both of them, where an update would leave `[12]`; and a second such call right after
it changes nothing. -/
theorem surf_reflection_same_direction_noop_witness :
    ((1 : Int) ≠ 0 ∧
      DoubleOps.eq
        ({ demoState with
            last_uvw := ⟨IntDouble.num 0, IntDouble.num 1, IntDouble.num 0⟩ }).last_uvw.c0
        (IntDouble.num 0) = true ∧
      DoubleOps.eq
        ({ demoState with
            last_uvw := ⟨IntDouble.num 0, IntDouble.num 1, IntDouble.num 0⟩ }).last_uvw.c1
        (IntDouble.num 1) = true ∧
      DoubleOps.eq
        ({ demoState with
            last_uvw := ⟨IntDouble.num 0, IntDouble.num 1, IntDouble.num 0⟩ }).last_uvw.c2
        (IntDouble.num 0) = true ∧
      DoubleOps.eq (IntDouble.num 0) (IntDouble.num 0) = true ∧
      DoubleOps.eq (IntDouble.num 1) (IntDouble.num 1) = true) ∧
    demoDag.reset_to_last_intersection ⟨[11, 12]⟩ = ⟨[12]⟩ ∧
    dagmc_surf_reflection_ demoDag
        { demoState with
            last_uvw := ⟨IntDouble.num 0, IntDouble.num 1, IntDouble.num 0⟩ }
        (IntDouble.num 0) (IntDouble.num 1) (IntDouble.num 0) 1
      = { demoState with
            last_uvw := ⟨IntDouble.num 0, IntDouble.num 1, IntDouble.num 0⟩,
            visited_surface := true } ∧
    (dagmc_surf_reflection_ demoDag
        (dagmc_surf_reflection_ demoDag
          { demoState with
              last_uvw := ⟨IntDouble.num 0, IntDouble.num 1, IntDouble.num 0⟩ }
          (IntDouble.num 0) (IntDouble.num 1) (IntDouble.num 0) 1)
        (IntDouble.num 0) (IntDouble.num 1) (IntDouble.num 0) 1).history = ⟨[11, 12]⟩ :=
  ⟨⟨by decide, rfl, rfl, rfl, rfl, rfl⟩, rfl,
   ((surf_reflection_same_direction_noop demoDag
      { demoState with
          last_uvw := ⟨IntDouble.num 0, IntDouble.num 1, IntDouble.num 0⟩ }
      (IntDouble.num 0) (IntDouble.num 1) (IntDouble.num 0) 1 (by decide) rfl rfl rfl).1.2
    ).trans (by rfl),
   (congrArg State.history
      (((surf_reflection_same_direction_noop demoDag
        { demoState with
            last_uvw := ⟨IntDouble.num 0, IntDouble.num 1, IntDouble.num 0⟩ }
        (IntDouble.num 0) (IntDouble.num 1) (IntDouble.num 0) 1 (by decide) rfl rfl rfl).2
        { demoState with
            last_uvw := ⟨IntDouble.num 0, IntDouble.num 1, IntDouble.num 0⟩ }
        1 rfl rfl rfl).2)).trans (by rfl)⟩

/-- C11: when `*verify_dir_change` is zero, or `==` finds some component of the new
direction different from `last_uvw`, `dagmc_surf_reflection_` stores the new direction
in `last_uvw`, applies `reset_to_last_intersection` once to the history and sets
`visited_surface`; `last_nps`, the bank, the slot table and every other static stay as
they are. -/
theorem surf_reflection_updates {D : Type} [DoubleOps D] (dag : DagMC D) (s : State D)
    (uuu vvv www : D) (verify_dir_change : Int)
    (h : verify_dir_change = 0 ∨ DoubleOps.eq s.last_uvw.c0 uuu = false
      ∨ DoubleOps.eq s.last_uvw.c1 vvv = false ∨ DoubleOps.eq s.last_uvw.c2 www = false) :
    dagmc_surf_reflection_ dag s uuu vvv www verify_dir_change
      = { s with visited_surface := true, last_uvw := ⟨uuu, vvv, www⟩,
                 history := dag.reset_to_last_intersection s.history } ∧
    (dagmc_surf_reflection_ dag s uuu vvv www verify_dir_change).last_nps = s.last_nps ∧
    (dagmc_surf_reflection_ dag s uuu vvv www verify_dir_change).history_bank
      = s.history_bank ∧
    (dagmc_surf_reflection_ dag s uuu vvv www verify_dir_change).pblcm_history_stack
      = s.pblcm_history_stack := by
  have hu : (if verify_dir_change ≠ 0 then
        (if DoubleOps.eq s.last_uvw.c0 uuu && DoubleOps.eq s.last_uvw.c1 vvv
            && DoubleOps.eq s.last_uvw.c2 www then false else true)
      else true) = true := by
    rcases h with h | h | h | h
    · simp [h]
    · simp [h]
    · simp [h]
    · simp [h]
  have hr : dagmc_surf_reflection_ dag s uuu vvv www verify_dir_change
      = { s with visited_surface := true, last_uvw := ⟨uuu, vvv, www⟩,
                 history := dag.reset_to_last_intersection s.history } := by
    unfold dagmc_surf_reflection_
    simp only [hu, if_true]
  rw [hr]
  exact ⟨rfl, rfl, rfl, rfl⟩

/-- Witness of C11: particle 5, last seen along `(1, 0, 0)`, is reflected into
`(0, 1, 0)` with verification; of the two recorded intersections the last one stays. -/
theorem surf_reflection_updates_witness :
    ((1 : Int) = 0 ∨ DoubleOps.eq demoState.last_uvw.c0 (IntDouble.num 0) = false
      ∨ DoubleOps.eq demoState.last_uvw.c1 (IntDouble.num 1) = false
      ∨ DoubleOps.eq demoState.last_uvw.c2 (IntDouble.num 0) = false) ∧
    dagmc_surf_reflection_ demoDag demoState (IntDouble.num 0) (IntDouble.num 1) (IntDouble.num 0) 1
      = { demoState with visited_surface := true,
                         last_uvw := ⟨IntDouble.num 0, IntDouble.num 1, IntDouble.num 0⟩,
                         history := ⟨[12]⟩ } :=
  ⟨Or.inr (Or.inl rfl),
   (surf_reflection_updates demoDag demoState (IntDouble.num 0) (IntDouble.num 1) (IntDouble.num 0)
      1 (Or.inr (Or.inl rfl))).1⟩

/-! ## The bank -/

/-- On a bank that ends with `top`, `dagmc_bank_usetop_` makes `top` the current
history and changes nothing else. -/
theorem bank_usetop_of_concat {D : Type} (s : State D) (rest : List RayHistory)
    (top : RayHistory) (h : s.history_bank = rest ++ [top]) :
    dagmc_bank_usetop_ s = { s with history := top } := by
  unfold dagmc_bank_usetop_
  rw [h, List.getLast?_concat]

/-- On a bank that ends with `top`, `dagmc_bank_pop_` removes `top` and changes nothing
else but `std::cerr`. -/
theorem bank_pop_of_concat {D : Type} (s : State D) (nbnk : Int) (rest : List RayHistory)
    (top : RayHistory) (h : s.history_bank = rest ++ [top]) :
    { dagmc_bank_pop_ s nbnk with cerr := s.cerr } = { s with history_bank := rest } := by
  have hl : s.history_bank.length ≠ 0 := by simp [h]
  unfold dagmc_bank_pop_
  simp only [hl, ne_eq, not_false_eq_true, if_true]
  rw [h, List.dropLast_concat]

/-- C12: from any state (current history `s.history`, bank of any length), after
`dagmc_bank_push_`, a change of the current history to any `h2`, `dagmc_bank_push_`,
`dagmc_bank_pop_` and `dagmc_bank_usetop_`, the current history is the one of the start
and the bank is the bank as it was just before `h2` was pushed, one entry longer than at
the start, whatever sizes the three calls were given. -/
theorem bank_push_push_pop_usetop {D : Type} (s : State D) (h2 : RayHistory)
    (nbnk1 nbnk2 nbnk3 : Int) :
    (dagmc_bank_usetop_ (dagmc_bank_pop_ (dagmc_bank_push_
        { (dagmc_bank_push_ s nbnk1) with history := h2 } nbnk2) nbnk3)).history
      = s.history ∧
    (dagmc_bank_usetop_ (dagmc_bank_pop_ (dagmc_bank_push_
        { (dagmc_bank_push_ s nbnk1) with history := h2 } nbnk2) nbnk3)).history_bank
      = (dagmc_bank_push_ s nbnk1).history_bank ∧
    (dagmc_bank_usetop_ (dagmc_bank_pop_ (dagmc_bank_push_
        { (dagmc_bank_push_ s nbnk1) with history := h2 } nbnk2) nbnk3)).history_bank.length
      = s.history_bank.length + 1 := by
  have hb3 : (dagmc_bank_push_
        { (dagmc_bank_push_ s nbnk1) with history := h2 } nbnk2).history_bank
      = (s.history_bank ++ [s.history]) ++ [h2] := rfl
  have hp := bank_pop_of_concat _ nbnk3 _ _ hb3
  have hb4 : (dagmc_bank_pop_ (dagmc_bank_push_
        { (dagmc_bank_push_ s nbnk1) with history := h2 } nbnk2) nbnk3).history_bank
      = s.history_bank ++ [s.history] := congrArg State.history_bank hp
  rw [bank_usetop_of_concat _ _ _ hb4]
  refine ⟨rfl, hb4, ?_⟩
  show (dagmc_bank_pop_ _ nbnk3).history_bank.length = _
  rw [hb4]
  simp

/-- A list with one more element at the end is a different list. -/
theorem append_singleton_ne {α : Type} (l : List α) (a : α) : l ++ [a] ≠ l := by
  intro h
  have hl := congrArg List.length h
  simp at hl

/-- C14: `dagmc_bank_push_` appends the current history at the end of the bank for
every `*nbnk` and every bank, leaves the current history and every other static but
`std::cerr` as they are, and writes its warning exactly when `(unsigned)*nbnk` differs
from the length of the bank; the statics apart from `std::cerr` are the same whichever
`*nbnk` is given. -/
theorem bank_push_appends {D : Type} (s : State D) (nbnk : Int) :
    (dagmc_bank_push_ s nbnk).history_bank = s.history_bank ++ [s.history] ∧
    (dagmc_bank_push_ s nbnk).history_bank.length = s.history_bank.length + 1 ∧
    (dagmc_bank_push_ s nbnk).history = s.history ∧
    ((dagmc_bank_push_ s nbnk).cerr ≠ s.cerr ↔ to_unsigned nbnk ≠ s.history_bank.length) ∧
    (∀ nbnk0 : Int, { (dagmc_bank_push_ s nbnk) with cerr := [] }
      = { (dagmc_bank_push_ s nbnk0) with cerr := [] }) ∧
    { (dagmc_bank_push_ s nbnk) with cerr := s.cerr }
      = { s with history_bank := s.history_bank ++ [s.history] } := by
  refine ⟨rfl, by simp [dagmc_bank_push_], rfl, ?_, fun _ => rfl, rfl⟩
  unfold dagmc_bank_push_
  by_cases hm : to_unsigned nbnk ≠ s.history_bank.length
  · simp only [hm, not_false_eq_true, if_true, ne_eq, iff_true]
    exact append_singleton_ne _ _
  · simp only [hm, if_false, ne_eq, not_true_eq_false]

/-- The scenario of the specification for C14: `dagmc_bank_push_` with `*nbnk = 3` on a
bank of two entries writes the warning and the bank has three entries afterwards. -/
theorem bank_push_scenario :
    (dagmc_bank_push_ { demoState with history_bank := [⟨[1]⟩, ⟨[2]⟩] } 3).history_bank
      = [⟨[1]⟩, ⟨[2]⟩, ⟨[11, 12]⟩] ∧
    (dagmc_bank_push_ { demoState with history_bank := [⟨[1]⟩, ⟨[2]⟩] } 3).cerr.length = 1 ∧
    (dagmc_bank_push_ { demoState with history_bank := [⟨[1]⟩, ⟨[2]⟩] } 2).cerr = [] ∧
    (dagmc_bank_push_ { demoState with history_bank := [⟨[1]⟩, ⟨[2]⟩] } (-1)).cerr.length
      = 1 := by
  refine ⟨rfl, ?_, ?_, ?_⟩ <;> simp [dagmc_bank_push_, to_unsigned, demoState]

/-- C15: on a bank whose last entry is `top`, `dagmc_bank_usetop_` makes `top` the
current history and leaves the bank, its length and every other static as they are; on
an empty bank it changes neither the current history nor the bank and only writes its
warning to `std::cerr`. -/
theorem bank_usetop_copies_top {D : Type} (s : State D) :
    (∀ (rest : List RayHistory) (top : RayHistory), s.history_bank = rest ++ [top] →
      dagmc_bank_usetop_ s = { s with history := top } ∧
      (dagmc_bank_usetop_ s).history_bank = rest ++ [top]) ∧
    (s.history_bank = [] →
      dagmc_bank_usetop_ s
        = { s with cerr := s.cerr ++ ["dagmc_bank_usetop_() called without bank history!"] }
      ∧ (dagmc_bank_usetop_ s).history = s.history
      ∧ (dagmc_bank_usetop_ s).history_bank = []) := by
  constructor
  · intro rest top h
    rw [bank_usetop_of_concat s rest top h]
    exact ⟨rfl, h⟩
  · intro h
    have hr : dagmc_bank_usetop_ s
        = { s with cerr := s.cerr
              ++ ["dagmc_bank_usetop_() called without bank history!"] } := by
      unfold dagmc_bank_usetop_
      rw [h]
      rfl
    rw [hr]
    exact ⟨rfl, rfl, h⟩

/-- Witness of C15: with two banked histories the second becomes current and the bank
keeps both; with the empty bank of `demoState` only the warning is written. -/
theorem bank_usetop_copies_top_witness :
    ({ demoState with history_bank := [⟨[1]⟩, ⟨[2]⟩] }.history_bank = [⟨[1]⟩] ++ [⟨[2]⟩] ∧
      demoState.history_bank = []) ∧
    dagmc_bank_usetop_ { demoState with history_bank := [⟨[1]⟩, ⟨[2]⟩] }
      = { demoState with history_bank := [⟨[1]⟩, ⟨[2]⟩], history := ⟨[2]⟩ } ∧
    (dagmc_bank_usetop_ demoState).history = ⟨[11, 12]⟩ ∧
    (dagmc_bank_usetop_ demoState).history_bank = [] :=
  ⟨⟨rfl, rfl⟩,
   ((bank_usetop_copies_top { demoState with history_bank := [⟨[1]⟩, ⟨[2]⟩] }).1
      [⟨[1]⟩] ⟨[2]⟩ rfl).1,
   ((bank_usetop_copies_top demoState).2 rfl).2.1,
   ((bank_usetop_copies_top demoState).2 rfl).2.2⟩

/-- C16: for every `*nbnk`, on a bank whose last entry is `top`, `dagmc_bank_pop_`
removes exactly that entry: the entries before it, in their order, the current history
and every other static but `std::cerr` stay as they are, whether or not `*nbnk` matches
the length; on an empty bank the bank stays empty and nothing but `std::cerr` changes. -/
theorem bank_pop_removes_top {D : Type} (s : State D) (nbnk : Int) :
    (∀ (rest : List RayHistory) (top : RayHistory), s.history_bank = rest ++ [top] →
      (dagmc_bank_pop_ s nbnk).history_bank = rest ∧
      (dagmc_bank_pop_ s nbnk).history = s.history ∧
      { (dagmc_bank_pop_ s nbnk) with cerr := s.cerr } = { s with history_bank := rest }) ∧
    (s.history_bank = [] →
      (dagmc_bank_pop_ s nbnk).history_bank = [] ∧
      (dagmc_bank_pop_ s nbnk).history = s.history ∧
      { (dagmc_bank_pop_ s nbnk) with cerr := s.cerr } = s) := by
  constructor
  · intro rest top h
    have hp := bank_pop_of_concat s nbnk rest top h
    have hb := congrArg State.history_bank hp
    have hh := congrArg State.history hp
    exact ⟨hb, hh, hp⟩
  · intro h
    have hl : ¬ (s.history_bank.length ≠ 0) := by simp [h]
    have hr : { (dagmc_bank_pop_ s nbnk) with cerr := s.cerr } = s := by
      unfold dagmc_bank_pop_
      simp only [hl, if_false]
    have hb := congrArg State.history_bank hr
    have hh := congrArg State.history hr
    exact ⟨hb.trans h, hh, hr⟩

/-- Witness of C16: a pop with the wrong size 7 on a bank of two entries removes the
second one; a pop on the empty bank of `demoState` leaves it empty. -/
theorem bank_pop_removes_top_witness :
    ({ demoState with history_bank := [⟨[1]⟩, ⟨[2]⟩] }.history_bank = [⟨[1]⟩] ++ [⟨[2]⟩] ∧
      demoState.history_bank = []) ∧
    (dagmc_bank_pop_ { demoState with history_bank := [⟨[1]⟩, ⟨[2]⟩] } 7).history_bank
      = [⟨[1]⟩] ∧
    (dagmc_bank_pop_ { demoState with history_bank := [⟨[1]⟩, ⟨[2]⟩] } 7).history
      = ⟨[11, 12]⟩ ∧
    (dagmc_bank_pop_ demoState 0).history_bank = [] :=
  ⟨⟨rfl, rfl⟩,
   ((bank_pop_removes_top { demoState with history_bank := [⟨[1]⟩, ⟨[2]⟩] } 7).1
      [⟨[1]⟩] ⟨[2]⟩ rfl).1,
   ((bank_pop_removes_top { demoState with history_bank := [⟨[1]⟩, ⟨[2]⟩] } 7).1
      [⟨[1]⟩] ⟨[2]⟩ rfl).2.1,
   ((bank_pop_removes_top demoState 0).2 rfl).1⟩

/-! ## `dagmc_particle_terminate_` -/

/-- C17: `dagmc_particle_terminate_` makes the current history the empty history from
every state and changes no other static: `last_nps`, `last_uvw`, `visited_surface`, the
bank, the slot table and the distance limit stay as they are. -/
theorem particle_terminate_resets {D : Type} (s : State D) :
    dagmc_particle_terminate_ s = { s with history := ⟨[]⟩ } ∧
    (dagmc_particle_terminate_ s).history = ⟨[]⟩ ∧
    (dagmc_particle_terminate_ s).last_nps = s.last_nps ∧
    (dagmc_particle_terminate_ s).last_uvw = s.last_uvw ∧
    (dagmc_particle_terminate_ s).visited_surface = s.visited_surface ∧
    (dagmc_particle_terminate_ s).history_bank = s.history_bank ∧
    (dagmc_particle_terminate_ s).pblcm_history_stack = s.pblcm_history_stack :=
  ⟨rfl, rfl, rfl, rfl, rfl, rfl, rfl⟩

/-! ## The slot table -/

/-- What one returning call does to the slot table: nothing, unless it is a
`dagmc_savpar_` with an index inside the table, which overwrites that slot with the
current history. -/
theorem call_run_slots {D : Type} [DoubleOps D] (dag : DagMC D) (s s1 : State D)
    (c : Call D) (h : c.run dag s = some s1) :
    s1.pblcm_history_stack = s.pblcm_history_stack ∨
    ∃ n : Int, c = Call.savpar n ∧ 0 ≤ n ∧ n.toNat < s.pblcm_history_stack.length ∧
      s1.pblcm_history_stack = s.pblcm_history_stack.set n.toNat s.history := by
  cases c with
  | track ih uuu vvv www xxx yyy zzz huge jsu nps =>
    left
    simp only [Call.run] at h
    cases hr : dagmctrack_ dag s ih uuu vvv www xxx yyy zzz huge jsu nps with
    | exit_failure s2 =>
      rw [hr] at h
      cases h
    | returned s2 dls jap =>
      rw [hr] at h
      injection h with h
      subst h
      rw [dagmctrack_returned_state dag s ih uuu vvv www xxx yyy zzz huge jsu nps s2 dls
        jap hr]
  | surf_reflection uuu vvv www verify_dir_change =>
    left
    simp only [Call.run] at h
    injection h with h
    subst h
    unfold dagmc_surf_reflection_
    simp only
    split_ifs <;> rfl
  | particle_terminate =>
    left
    injection h with h
    subst h
    rfl
  | newcel jsu icl iap =>
    left
    injection h with h
    subst h
    rfl
  | bank_push nbnk =>
    left
    injection h with h
    subst h
    rfl
  | bank_usetop =>
    left
    injection h with h
    subst h
    unfold dagmc_bank_usetop_
    split <;> rfl
  | bank_pop nbnk =>
    left
    injection h with h
    subst h
    unfold dagmc_bank_pop_
    simp only
    split_ifs <;> rfl
  | bank_clear =>
    left
    injection h with h
    subst h
    rfl
  | savpar n =>
    right
    simp only [Call.run, dagmc_savpar_] at h
    split_ifs at h with hn
    injection h with h
    subst h
    exact ⟨n, rfl, hn.1, hn.2, rfl⟩
  | getpar n =>
    left
    simp only [Call.run, dagmc_getpar_] at h
    split_ifs at h with hn
    split at h
    · injection h with h
      subst h
      rfl
    · cases h

/-- No returning call changes the length of the slot table. -/
theorem call_run_slots_length {D : Type} [DoubleOps D] (dag : DagMC D) (s s1 : State D)
    (c : Call D) (h : c.run dag s = some s1) :
    s1.pblcm_history_stack.length = s.pblcm_history_stack.length := by
  rcases call_run_slots dag s s1 c h with h1 | ⟨n, _, _, _, h1⟩
  · rw [h1]
  · rw [h1, List.length_set]

/-- No sequence of returning calls changes the length of the slot table. -/
theorem run_calls_slots_length {D : Type} [DoubleOps D] (dag : DagMC D)
    (calls : List (Call D)) :
    ∀ s s1 : State D, run_calls dag s calls = some s1 →
      s1.pblcm_history_stack.length = s.pblcm_history_stack.length := by
  induction calls with
  | nil =>
    intro s s1 h
    simp only [run_calls] at h
    injection h with h
    rw [h]
  | cons c cs ih =>
    intro s s1 h
    simp only [run_calls] at h
    cases hc : c.run dag s with
    | none =>
      rw [hc] at h
      cases h
    | some s2 =>
      rw [hc] at h
      rw [ih s2 s1 h, call_run_slots_length dag s s2 c hc]

/-- A sequence of returning calls that never saves to slot `k` leaves the content of
slot `k` as it is. -/
theorem run_calls_keeps_slot {D : Type} [DoubleOps D] (dag : DagMC D) (k : Int)
    (hk : 0 ≤ k) (calls : List (Call D)) :
    ∀ s s1 : State D, (∀ c ∈ calls, c ≠ Call.savpar k) →
      run_calls dag s calls = some s1 →
      s1.pblcm_history_stack[k.toNat]? = s.pblcm_history_stack[k.toNat]? := by
  induction calls with
  | nil =>
    intro s s1 _ h
    simp only [run_calls] at h
    injection h with h
    rw [h]
  | cons c cs ih =>
    intro s s1 hne h
    simp only [run_calls] at h
    cases hc : c.run dag s with
    | none =>
      rw [hc] at h
      cases h
    | some s2 =>
      rw [hc] at h
      have htail : ∀ c0 ∈ cs, c0 ≠ Call.savpar k := fun c0 hc0 =>
        hne c0 (List.mem_cons_of_mem c hc0)
      rw [ih s2 s1 htail h]
      rcases call_run_slots dag s s2 c hc with h1 | ⟨n, hcn, hn0, _, h1⟩
      · rw [h1]
      · have hnk : n ≠ k := by
          intro hnk
          apply hne c (List.mem_cons_self c cs)
          rw [hcn, hnk]
        have hidx : n.toNat ≠ k.toNat := by
          intro hidx
          apply hnk
          have e1 := Int.toNat_of_nonneg hn0
          have e2 := Int.toNat_of_nonneg hk
          rw [← e1, ← e2, hidx]
        rw [h1, List.getElem?_set_ne hidx]

/-- C13: with a slot table of `m + 1` entries and a slot `k` in `[1, m]`,
`dagmc_savpar_` of slot `k` returns; and after any sequence of returning calls of
`dagmctrack_`, `dagmc_surf_reflection_`, `dagmc_particle_terminate_`, `dagmcnewcel_`,
the four bank functions, `dagmc_getpar_` of any slot and `dagmc_savpar_` of slots other
than `k`, `dagmc_getpar_` of slot `k` returns and makes the current history the one
that was current at the save, changing nothing else. -/
theorem slot_save_restore_round_trip {D : Type} [DoubleOps D] (dag : DagMC D)
    (s : State D) (k m : Int) (calls : List (Call D))
    (hk1 : 1 ≤ k) (hk2 : k ≤ m)
    (hm : (s.pblcm_history_stack.length : Int) = m + 1)
    (hcalls : ∀ c ∈ calls, c ≠ Call.savpar k) :
    ∃ s1, dagmc_savpar_ s k = some s1 ∧
      ∀ s2, run_calls dag s1 calls = some s2 →
        dagmc_getpar_ s2 k = some { s2 with history := s.history } := by
  have hk0 : 0 ≤ k := by omega
  have hlt : k.toNat < s.pblcm_history_stack.length := by omega
  refine ⟨{ s with pblcm_history_stack := s.pblcm_history_stack.set k.toNat s.history },
    ?_, ?_⟩
  · unfold dagmc_savpar_
    rw [if_pos ⟨hk0, hlt⟩]
  · intro s2 hrun
    have hslot := run_calls_keeps_slot dag k hk0 calls _ s2 hcalls hrun
    simp only [List.getElem?_set_self hlt] at hslot
    unfold dagmc_getpar_
    rw [if_pos hk0, hslot]

/-- Witness of C13: the history of `demoState` is saved to slot 1 of its two-entry
table; a bank push, a termination, a save to slot 0, a restore of slot 0 and a
`dagmctrack_` follow, all of which return; slot 1 then gives the saved history back. -/
theorem slot_save_restore_round_trip_witness :
    ((1 : Int) ≤ 1 ∧ (1 : Int) ≤ 1 ∧
      (demoState.pblcm_history_stack.length : Int) = 1 + 1 ∧
      ∀ c ∈ [Call.bank_push 0, Call.particle_terminate, Call.savpar 0, Call.getpar 0,
          Call.track 1 (IntDouble.num 1) (IntDouble.num 0) (IntDouble.num 0)
            (IntDouble.num 0) (IntDouble.num 0) (IntDouble.num 0) (IntDouble.num 1000) 11 5],
        c ≠ Call.savpar 1) ∧
    (∃ s1, dagmc_savpar_ demoState 1 = some s1 ∧
      ∀ s2, run_calls demoDag s1
          [Call.bank_push 0, Call.particle_terminate, Call.savpar 0, Call.getpar 0,
            Call.track 1 (IntDouble.num 1) (IntDouble.num 0) (IntDouble.num 0)
              (IntDouble.num 0) (IntDouble.num 0) (IntDouble.num 0) (IntDouble.num 1000)
              11 5] = some s2 →
        dagmc_getpar_ s2 1 = some { s2 with history := demoState.history }) ∧
    ((run_calls demoDag { demoState with pblcm_history_stack := [⟨[]⟩, ⟨[11, 12]⟩] }
        [Call.bank_push 0, Call.particle_terminate, Call.savpar 0, Call.getpar 0,
          Call.track 1 (IntDouble.num 1) (IntDouble.num 0) (IntDouble.num 0)
            (IntDouble.num 0) (IntDouble.num 0) (IntDouble.num 0) (IntDouble.num 1000)
            11 5]).bind (fun s2 => dagmc_getpar_ s2 1)).map State.history
      = some ⟨[11, 12]⟩ :=
  ⟨⟨by decide, by decide, rfl, by simp⟩,
   slot_save_restore_round_trip demoDag demoState 1 1 _ (by decide) (by decide) rfl
     (by simp),
   rfl⟩

/-- The length of a resized vector is the requested one. -/
theorem vector_resize_length (v : List RayHistory) (n : Nat) :
    (vector_resize v n).length = n := by
  unfold vector_resize
  simp only [List.length_append, List.length_take, List.length_replicate]
  omega

/-- C18 (counterexample): with `*max_pbl = 2147483647`, which is not negative,
`*max_pbl+1` overflows `int`; `dagmcinit_` does not return with a slot table of
`2147483648` entries. -/
theorem init_overflows_at_int_max :
    (0 : Int) ≤ 2147483647 ∧
    dagmcinit_ MB_SUCCESS MB_SUCCESS (initial_state : State IntDouble) "geom.h5m"
        2147483647 = InitResult.undefined_behaviour ∧
    ¬ ∃ s1, dagmcinit_ MB_SUCCESS MB_SUCCESS (initial_state : State IntDouble) "geom.h5m"
        2147483647 = InitResult.returned s1 := by
  have h : dagmcinit_ MB_SUCCESS MB_SUCCESS (initial_state : State IntDouble) "geom.h5m"
      2147483647 = InitResult.undefined_behaviour := by
    unfold dagmcinit_
    simp
  refine ⟨by decide, h, ?_⟩
  rintro ⟨s1, h1⟩
  rw [h] at h1
  cases h1

/-- C18 (amended): when `load_file` and `init_OBBTree` succeed and `0 ≤ m < 2 ^ 31 - 1`,
`dagmcinit_` with `*max_pbl = m` returns with a slot table of exactly `m + 1` entries;
after any sequence of returning calls of `dagmctrack_`, `dagmc_surf_reflection_`,
`dagmc_particle_terminate_`, `dagmcnewcel_`, the bank functions, `dagmc_savpar_` and
`dagmc_getpar_` the table still has `m + 1` entries, so `dagmc_savpar_` and
`dagmc_getpar_` of a slot `n` with `1 ≤ n ≤ m` index inside the table and return. -/
theorem init_slot_table_length_kept {D : Type} [DoubleOps D] (dag : DagMC D) (s : State D)
    (cfile : String) (m : Int) (h0 : 0 ≤ m) (h1 : m < 2 ^ 31 - 1) :
    ∃ s1, dagmcinit_ MB_SUCCESS MB_SUCCESS s cfile m = InitResult.returned s1 ∧
      (s1.pblcm_history_stack.length : Int) = m + 1 ∧
      ∀ (calls : List (Call D)) (s2 : State D), run_calls dag s1 calls = some s2 →
        (s2.pblcm_history_stack.length : Int) = m + 1 ∧
        ∀ n : Int, 1 ≤ n → n ≤ m →
          (dagmc_savpar_ s2 n).isSome = true ∧ (dagmc_getpar_ s2 n).isSome = true := by
  have hov : ¬ (m + 1 > 2 ^ 31 - 1) := by omega
  have hneg : ¬ (m + 1 < 0) := by omega
  have hmod : (m + 1) % 2 ^ 64 = m + 1 := Int.emod_eq_of_lt (by omega) (by omega)
  refine ⟨{ s with pblcm_history_stack :=
      vector_resize s.pblcm_history_stack ((m + 1) % 2 ^ 64).toNat }, ?_, ?_, ?_⟩
  · unfold dagmcinit_
    simp only [ne_eq, not_true_eq_false, if_false, hov, hneg]
  · show ((vector_resize s.pblcm_history_stack ((m + 1) % 2 ^ 64).toNat).length : Int)
      = m + 1
    rw [vector_resize_length, hmod]
    omega
  · intro calls s2 hrun
    have hlen := run_calls_slots_length dag calls _ s2 hrun
    have hl2 : (s2.pblcm_history_stack.length : Int) = m + 1 := by
      rw [hlen]
      show ((vector_resize s.pblcm_history_stack ((m + 1) % 2 ^ 64).toNat).length : Int)
        = m + 1
      rw [vector_resize_length, hmod]
      omega
    refine ⟨hl2, ?_⟩
    intro n hn1 hn2
    have hn0 : 0 ≤ n := by omega
    have hlt : n.toNat < s2.pblcm_history_stack.length := by omega
    constructor
    · unfold dagmc_savpar_
      rw [if_pos ⟨hn0, hlt⟩]
      rfl
    · unfold dagmc_getpar_
      rw [if_pos hn0, List.getElem?_eq_getElem hlt]
      rfl

/-- Witness of C18 (amended): initialisation with `*max_pbl = 3` gives a slot table of
four entries. -/
theorem init_slot_table_length_kept_witness :
    ((0 : Int) ≤ 3 ∧ (3 : Int) < 2 ^ 31 - 1) ∧
    ∃ s1, dagmcinit_ MB_SUCCESS MB_SUCCESS (initial_state : State IntDouble) "geom.h5m" 3
        = InitResult.returned s1 ∧
      (s1.pblcm_history_stack.length : Int) = 3 + 1 ∧
      ∀ (calls : List (Call IntDouble)) (s2 : State IntDouble),
        run_calls demoDag s1 calls = some s2 →
        (s2.pblcm_history_stack.length : Int) = 3 + 1 ∧
        ∀ n : Int, 1 ≤ n → n ≤ 3 →
          (dagmc_savpar_ s2 n).isSome = true ∧ (dagmc_getpar_ s2 n).isSome = true :=
  ⟨⟨by decide, by decide⟩,
   init_slot_table_length_kept demoDag initial_state "geom.h5m" 3 (by decide) (by decide)⟩

/-! ## Two `dagmctrack_` calls around a confirmed crossing -/

/-- C19 (counterexample): particle 5 is tracked twice along the same direction with a
`dagmcnewcel_` in between. First part: the direction is `(1, 0, 0)` and the second call
names no previous surface (`*jsu = 0`); second part: the second call names surface 11
but the direction is `(NaN, 0, 0)`, which `==` does not find equal to itself. In both
the history after the decision block of the second call is empty, and not the history
that the first query left. -/
theorem track_after_crossing_can_reset :
    (dagmctrack_ demoDag demoState 1 (IntDouble.num 1) (IntDouble.num 0) (IntDouble.num 0)
        (IntDouble.num 0) (IntDouble.num 0) (IntDouble.num 0) (IntDouble.num 1000) 11 5
      = TrackResult.returned { demoState with history := ⟨[11, 11]⟩ } (IntDouble.num 1) 11 ∧
     track_history (dagmcnewcel_ demoDag { demoState with history := ⟨[11, 11]⟩ } 11 1 0).1
        (demoDag.entity_by_index 2 0) (IntDouble.num 1) (IntDouble.num 0) (IntDouble.num 0)
        5 = ⟨[]⟩) ∧
    (dagmctrack_ demoDagDense demoState 1 IntDouble.nan (IntDouble.num 0) (IntDouble.num 0)
        (IntDouble.num 0) (IntDouble.num 0) (IntDouble.num 0) (IntDouble.num 1000) 11 5
      = TrackResult.returned
          { demoState with history := ⟨[11]⟩,
                           last_uvw := ⟨IntDouble.nan, IntDouble.num 0, IntDouble.num 0⟩ }
          (IntDouble.num 1) 11 ∧
     track_history
        (dagmcnewcel_ demoDagDense
          { demoState with history := ⟨[11]⟩,
                           last_uvw := ⟨IntDouble.nan, IntDouble.num 0, IntDouble.num 0⟩ }
          11 1 0).1
        (demoDagDense.entity_by_index 2 11) IntDouble.nan (IntDouble.num 0)
        (IntDouble.num 0) 5 = ⟨[]⟩) :=
  ⟨⟨rfl, rfl⟩, ⟨rfl, rfl⟩⟩

/-- C19 (amended): a `dagmctrack_` call returns, `dagmcnewcel_` is called, and
`dagmctrack_` is called again with the same particle id and the same direction. When
the second call names an existing previous surface (the handle looked up for `*jsu` is
not 0) and `==` finds every component of the direction equal to itself, the second call
neither resets nor rolls back: the history after its decision block, which it hands to
`ray_fire`, is the history the first query left. -/
theorem track_after_crossing_continues {D : Type} [DoubleOps D] (dag : DagMC D)
    (s0 s1 : State D) (ih1 jsu1 : Int) (uuu vvv www x1 y1 z1 huge1 dls1 : D) (jap1 : Int)
    (nps jsuc icl iap ih2 jsu2 : Int) (x2 y2 z2 : D)
    (hfirst : dagmctrack_ dag s0 ih1 uuu vvv www x1 y1 z1 huge1 jsu1 nps
      = TrackResult.returned s1 dls1 jap1)
    (hprev : dag.entity_by_index 2 jsu2 ≠ 0)
    (hu : DoubleOps.eq uuu uuu = true) (hv : DoubleOps.eq vvv vvv = true)
    (hw : DoubleOps.eq www www = true) :
    track_history (dagmcnewcel_ dag s1 jsuc icl iap).1 (dag.entity_by_index 2 jsu2)
        uuu vvv www nps
      = (track_query dag s0 ih1 uuu vvv www x1 y1 z1 jsu1 nps).history ∧
    track_query dag (dagmcnewcel_ dag s1 jsuc icl iap).1 ih2 uuu vvv www x2 y2 z2 jsu2 nps
      = dag.ray_fire (dag.entity_by_index 3 ih2) ⟨x2, y2, z2⟩ ⟨uuu, vvv, www⟩
          (track_query dag s0 ih1 uuu vvv www x1 y1 z1 jsu1 nps).history
          (track_limit (dagmcnewcel_ dag s1 jsuc icl iap).1) := by
  have hs1 := dagmctrack_returned_state dag s0 ih1 uuu vvv www x1 y1 z1 huge1 jsu1 nps s1
    dls1 jap1 hfirst
  have hc : ¬ ((dagmcnewcel_ dag s1 jsuc icl iap).1.last_nps ≠ nps
      ∨ dag.entity_by_index 2 jsu2 = 0) := by
    rintro (h | h)
    · apply h
      show s1.last_nps = nps
      rw [hs1]
    · exact hprev h
  have hd : (dagmcnewcel_ dag s1 jsuc icl iap).1.last_uvw = ⟨uuu, vvv, www⟩ := by
    show s1.last_uvw = _
    rw [hs1]
  have hvis : (dagmcnewcel_ dag s1 jsuc icl iap).1.visited_surface = true := rfl
  have hhist : (dagmcnewcel_ dag s1 jsuc icl iap).1.history
      = (track_query dag s0 ih1 uuu vvv www x1 y1 z1 jsu1 nps).history := by
    show s1.history = _
    rw [hs1]
  have hh : track_history (dagmcnewcel_ dag s1 jsuc icl iap).1 (dag.entity_by_index 2 jsu2)
      uuu vvv www nps = (track_query dag s0 ih1 uuu vvv www x1 y1 z1 jsu1 nps).history := by
    unfold track_history
    rw [if_neg hc, hd]
    simp only [hu, hv, hw, Bool.and_self, if_true, hvis, Bool.not_true]
    exact hhist
  refine ⟨hh, ?_⟩
  show dag.ray_fire _ _ _ (track_history _ _ uuu vvv www nps) _ = _
  rw [hh]

/-- Witness of C19 (amended), the scenario of the specification: particle 5 streams
along `(1, 0, 0)`, the crossing of surface 11 is confirmed, and the second call, from
previous surface 11, is handed the history `[11, 11]` that the first query left. -/
theorem track_after_crossing_continues_witness :
    (dagmctrack_ demoDag demoState 1 (IntDouble.num 1) (IntDouble.num 0) (IntDouble.num 0)
        (IntDouble.num 0) (IntDouble.num 0) (IntDouble.num 0) (IntDouble.num 1000) 11 5
      = TrackResult.returned { demoState with history := ⟨[11, 11]⟩ } (IntDouble.num 1) 11 ∧
      demoDag.entity_by_index 2 11 ≠ 0 ∧
      DoubleOps.eq (IntDouble.num 1) (IntDouble.num 1) = true ∧
      DoubleOps.eq (IntDouble.num 0) (IntDouble.num 0) = true) ∧
    track_history (dagmcnewcel_ demoDag { demoState with history := ⟨[11, 11]⟩ } 11 1 0).1
        (demoDag.entity_by_index 2 11) (IntDouble.num 1) (IntDouble.num 0) (IntDouble.num 0)
        5 = ⟨[11, 11]⟩ :=
  ⟨⟨rfl, by decide, rfl, rfl⟩,
   (track_after_crossing_continues demoDag demoState { demoState with history := ⟨[11, 11]⟩ }
      1 11 (IntDouble.num 1) (IntDouble.num 0) (IntDouble.num 0) (IntDouble.num 0)
      (IntDouble.num 0) (IntDouble.num 0) (IntDouble.num 1000) (IntDouble.num 1) 11
      5 11 1 0 2 11 (IntDouble.num 1) (IntDouble.num 0) (IntDouble.num 0)
      (by rfl) (by decide) rfl rfl rfl).1.trans (by rfl)⟩

/-! ## Stored histories are inert copies -/

/-- The statics that a `dagmctrack_` call leaves differ from the ones before it at
most in `history`, `last_uvw`, `last_nps`, `visited_surface` and `std::cerr`. -/
theorem dagmctrack_frame {D : Type} [DoubleOps D] (dag : DagMC D) (s : State D)
    (ih : Int) (uuu vvv www xxx yyy zzz huge : D) (jsu nps : Int) :
    (dagmctrack_ dag s ih uuu vvv www xxx yyy zzz huge jsu nps).state.history_bank
      = s.history_bank ∧
    (dagmctrack_ dag s ih uuu vvv www xxx yyy zzz huge jsu nps).state.pblcm_history_stack
      = s.pblcm_history_stack ∧
    (dagmctrack_ dag s ih uuu vvv www xxx yyy zzz huge jsu nps).state.use_dist_limit
      = s.use_dist_limit ∧
    (dagmctrack_ dag s ih uuu vvv www xxx yyy zzz huge jsu nps).state.dist_limit
      = s.dist_limit := by
  unfold dagmctrack_
  simp only
  split_ifs <;> exact ⟨rfl, rfl, rfl, rfl⟩

/-- The statics that `dagmc_surf_reflection_` leaves differ from the ones before it at
most in `history`, `last_uvw` and `visited_surface`. -/
theorem surf_reflection_frame {D : Type} [DoubleOps D] (dag : DagMC D) (s : State D)
    (uuu vvv www : D) (verify_dir_change : Int) :
    (dagmc_surf_reflection_ dag s uuu vvv www verify_dir_change).history_bank
      = s.history_bank ∧
    (dagmc_surf_reflection_ dag s uuu vvv www verify_dir_change).pblcm_history_stack
      = s.pblcm_history_stack ∧
    (dagmc_surf_reflection_ dag s uuu vvv www verify_dir_change).last_nps = s.last_nps := by
  unfold dagmc_surf_reflection_
  simp only
  split_ifs <;> exact ⟨rfl, rfl, rfl⟩

/-- The statics that `dagmc_bank_usetop_` leaves differ from the ones before it at most
in `history` and `std::cerr`. -/
theorem bank_usetop_frame {D : Type} (s : State D) :
    (dagmc_bank_usetop_ s).history_bank = s.history_bank ∧
    (dagmc_bank_usetop_ s).pblcm_history_stack = s.pblcm_history_stack ∧
    (dagmc_bank_usetop_ s).last_nps = s.last_nps ∧
    (dagmc_bank_usetop_ s).last_uvw = s.last_uvw ∧
    (dagmc_bank_usetop_ s).visited_surface = s.visited_surface ∧
    (dagmc_bank_usetop_ s).use_dist_limit = s.use_dist_limit ∧
    (dagmc_bank_usetop_ s).dist_limit = s.dist_limit := by
  unfold dagmc_bank_usetop_
  split <;> exact ⟨rfl, rfl, rfl, rfl, rfl, rfl, rfl⟩

/-- The statics that `dagmc_bank_pop_` leaves differ from the ones before it at most in
`history_bank` and `std::cerr`. -/
theorem bank_pop_frame {D : Type} (s : State D) (nbnk : Int) :
    (dagmc_bank_pop_ s nbnk).history = s.history ∧
    (dagmc_bank_pop_ s nbnk).pblcm_history_stack = s.pblcm_history_stack ∧
    (dagmc_bank_pop_ s nbnk).last_nps = s.last_nps ∧
    (dagmc_bank_pop_ s nbnk).last_uvw = s.last_uvw ∧
    (dagmc_bank_pop_ s nbnk).visited_surface = s.visited_surface ∧
    (dagmc_bank_pop_ s nbnk).use_dist_limit = s.use_dist_limit ∧
    (dagmc_bank_pop_ s nbnk).dist_limit = s.dist_limit := by
  unfold dagmc_bank_pop_
  simp only
  split_ifs <;> exact ⟨rfl, rfl, rfl, rfl, rfl, rfl, rfl⟩

/-- A returning `dagmc_savpar_` overwrites its slot with the current history and
changes nothing else. -/
theorem savpar_returns {D : Type} (s s1 : State D) (k : Int)
    (h : dagmc_savpar_ s k = some s1) :
    0 ≤ k ∧ k.toNat < s.pblcm_history_stack.length ∧
    s1 = { s with pblcm_history_stack := s.pblcm_history_stack.set k.toNat s.history } := by
  unfold dagmc_savpar_ at h
  split_ifs at h with hk
  injection h with h
  exact ⟨hk.1, hk.2, h.symm⟩

/-- A returning `dagmc_getpar_` makes the content of its slot the current history and
changes nothing else. -/
theorem getpar_returns {D : Type} (s s1 : State D) (n : Int)
    (h : dagmc_getpar_ s n = some s1) :
    ∃ hist, s.pblcm_history_stack[n.toNat]? = some hist ∧ s1 = { s with history := hist } := by
  unfold dagmc_getpar_ at h
  split_ifs at h with hn
  split at h
  · rename_i hist hslot
    injection h with h
    exact ⟨hist, hslot, h.symm⟩
  · cases h

/-- C20: the bank and the slot table hold copies that the other functions do not
touch. `dagmctrack_` (however it ends), `dagmc_surf_reflection_`,
`dagmc_particle_terminate_` and `dagmcnewcel_` leave the bank and the slot table as
they are; so do `dagmc_bank_usetop_` and a returning `dagmc_getpar_`; a returning
`dagmc_savpar_` of slot `k` leaves the bank, the length of the table and every slot
but `k` as they are; `dagmc_bank_push_`, `dagmc_bank_pop_` and `dagmc_bank_clear_`
leave the slot table as it is, and the first two leave the entries of the bank that
stay in it as they are. -/
theorem stored_histories_inert {D : Type} [DoubleOps D] (dag : DagMC D) (s : State D) :
    (∀ (ih : Int) (uuu vvv www xxx yyy zzz huge : D) (jsu nps : Int),
      (dagmctrack_ dag s ih uuu vvv www xxx yyy zzz huge jsu nps).state.history_bank
        = s.history_bank ∧
      (dagmctrack_ dag s ih uuu vvv www xxx yyy zzz huge jsu nps).state.pblcm_history_stack
        = s.pblcm_history_stack) ∧
    (∀ (uuu vvv www : D) (verify_dir_change : Int),
      (dagmc_surf_reflection_ dag s uuu vvv www verify_dir_change).history_bank
        = s.history_bank ∧
      (dagmc_surf_reflection_ dag s uuu vvv www verify_dir_change).pblcm_history_stack
        = s.pblcm_history_stack) ∧
    ((dagmc_particle_terminate_ s).history_bank = s.history_bank ∧
      (dagmc_particle_terminate_ s).pblcm_history_stack = s.pblcm_history_stack) ∧
    (∀ jsu icl iap : Int,
      (dagmcnewcel_ dag s jsu icl iap).1.history_bank = s.history_bank ∧
      (dagmcnewcel_ dag s jsu icl iap).1.pblcm_history_stack = s.pblcm_history_stack) ∧
    ((dagmc_bank_usetop_ s).history_bank = s.history_bank ∧
      (dagmc_bank_usetop_ s).pblcm_history_stack = s.pblcm_history_stack) ∧
    (∀ (n : Int) (s1 : State D), dagmc_getpar_ s n = some s1 →
      s1.history_bank = s.history_bank ∧
      s1.pblcm_history_stack = s.pblcm_history_stack) ∧
    (∀ (k : Int) (s1 : State D), dagmc_savpar_ s k = some s1 →
      s1.history_bank = s.history_bank ∧
      s1.pblcm_history_stack.length = s.pblcm_history_stack.length ∧
      s1.pblcm_history_stack[k.toNat]? = some s.history ∧
      ∀ j : Nat, j ≠ k.toNat → s1.pblcm_history_stack[j]? = s.pblcm_history_stack[j]?) ∧
    (∀ nbnk : Int,
      (dagmc_bank_push_ s nbnk).pblcm_history_stack = s.pblcm_history_stack ∧
      (dagmc_bank_push_ s nbnk).history_bank.take s.history_bank.length = s.history_bank) ∧
    (∀ nbnk : Int,
      (dagmc_bank_pop_ s nbnk).pblcm_history_stack = s.pblcm_history_stack ∧
      (dagmc_bank_pop_ s nbnk).history_bank
        = s.history_bank.take (s.history_bank.length - 1)) ∧
    (dagmc_bank_clear_ s).pblcm_history_stack = s.pblcm_history_stack := by
  refine ⟨?_, ?_, ⟨rfl, rfl⟩, fun _ _ _ => ⟨rfl, rfl⟩, ?_, ?_, ?_, ?_, ?_, rfl⟩
  · intro ih uuu vvv www xxx yyy zzz huge jsu nps
    have h := dagmctrack_frame dag s ih uuu vvv www xxx yyy zzz huge jsu nps
    exact ⟨h.1, h.2.1⟩
  · intro uuu vvv www verify_dir_change
    have h := surf_reflection_frame dag s uuu vvv www verify_dir_change
    exact ⟨h.1, h.2.1⟩
  · have h := bank_usetop_frame s
    exact ⟨h.1, h.2.1⟩
  · intro n s1 h
    obtain ⟨hist, _, h1⟩ := getpar_returns s s1 n h
    rw [h1]
    exact ⟨rfl, rfl⟩
  · intro k s1 h
    obtain ⟨_, hlt, h1⟩ := savpar_returns s s1 k h
    rw [h1]
    refine ⟨rfl, ?_, ?_, ?_⟩
    · show (s.pblcm_history_stack.set k.toNat s.history).length = _
      rw [List.length_set]
    · show (s.pblcm_history_stack.set k.toNat s.history)[k.toNat]? = _
      rw [List.getElem?_set_self hlt]
    · intro j hj
      show (s.pblcm_history_stack.set k.toNat s.history)[j]? = _
      rw [List.getElem?_set_ne (Ne.symm hj)]
  · intro nbnk
    refine ⟨rfl, ?_⟩
    show (s.history_bank ++ [s.history]).take s.history_bank.length = _
    simp
  · intro nbnk
    refine ⟨(bank_pop_frame s nbnk).2.1, ?_⟩
    have hb : (dagmc_bank_pop_ s nbnk).history_bank = s.history_bank.dropLast := by
      by_cases hl : s.history_bank.length ≠ 0
      · unfold dagmc_bank_pop_
        simp only [hl, ne_eq, not_false_eq_true, if_true]
      · have h0 : s.history_bank = [] := by
          cases hb : s.history_bank with
          | nil => rfl
          | cons a l =>
            rw [hb] at hl
            simp at hl
        unfold dagmc_bank_pop_
        simp only [hl, if_false]
        rw [h0]
        rfl
    rw [hb, List.dropLast_eq_take]

/-- Witness of C20: a save to slot 1 and a restore of slot 0 from `demoState`, with one
banked history. -/
theorem stored_histories_inert_witness :
    (dagmc_savpar_ { demoState with history_bank := [⟨[1]⟩] } 1
        = some { demoState with history_bank := [⟨[1]⟩],
                                pblcm_history_stack := [⟨[]⟩, ⟨[11, 12]⟩] } ∧
      dagmc_getpar_ { demoState with history_bank := [⟨[1]⟩] } 0
        = some { demoState with history_bank := [⟨[1]⟩], history := ⟨[]⟩ }) ∧
    ({ demoState with history_bank := [⟨[1]⟩],
                      pblcm_history_stack := [⟨[]⟩, ⟨[11, 12]⟩] }.history_bank
        = { demoState with history_bank := [⟨[1]⟩] }.history_bank ∧
      { demoState with history_bank := [⟨[1]⟩], history := ⟨[]⟩ }.pblcm_history_stack
        = { demoState with history_bank := [⟨[1]⟩] }.pblcm_history_stack) :=
  ⟨⟨rfl, rfl⟩,
   ((stored_histories_inert demoDag { demoState with history_bank := [⟨[1]⟩] }).2.2.2.2.2.2.1
      1 _ rfl).1,
   ((stored_histories_inert demoDag { demoState with history_bank := [⟨[1]⟩] }).2.2.2.2.2.1
      0 _ rfl).2⟩

/-! ## `dagmc_bank_clear_` -/

/-- C21: `dagmc_bank_clear_` leaves the bank empty from every state and changes no
other static: the current history, the slot table, `last_nps`, `last_uvw`,
`visited_surface` and the distance limit stay as they are; a `dagmc_bank_usetop_` right
after it leaves the current history as it is (and the bank empty). -/
theorem bank_clear_empties {D : Type} (s : State D) :
    (dagmc_bank_clear_ s).history_bank = [] ∧
    dagmc_bank_clear_ s = { s with history_bank := [] } ∧
    (dagmc_bank_clear_ s).history = s.history ∧
    (dagmc_bank_clear_ s).pblcm_history_stack = s.pblcm_history_stack ∧
    same_tracking s (dagmc_bank_clear_ s) ∧
    (dagmc_bank_usetop_ (dagmc_bank_clear_ s)).history = s.history ∧
    (dagmc_bank_usetop_ (dagmc_bank_clear_ s)).history_bank = [] :=
  ⟨rfl, rfl, rfl, rfl, ⟨rfl, rfl, rfl, rfl, rfl⟩, rfl, rfl⟩

/-! ## The decision of `dagmctrack_` as a branch -/

/-- The history after the decision block is the branch taken, applied to the stored
history. -/
theorem track_history_eq_action {D : Type} [DoubleOps D] (s : State D)
    (prev : EntityHandle) (uuu vvv www : D) (nps : Int) :
    track_history s prev uuu vvv www nps
      = (track_action s prev uuu vvv www nps).apply s.history := by
  unfold track_history track_action
  split_ifs <;> rfl

/-- The branch taken by the decision block and the limit passed to `ray_fire` depend on
the statics only through the tracking fields and the distance-limit setting. -/
theorem track_action_of_same_tracking {D : Type} [DoubleOps D] (s s1 : State D)
    (h : same_tracking s s1) (prev : EntityHandle) (uuu vvv www : D) (nps : Int) :
    track_action s1 prev uuu vvv www nps = track_action s prev uuu vvv www nps ∧
    track_limit s1 = track_limit s := by
  obtain ⟨h1, h2, h3, h4, h5⟩ := h
  unfold track_action track_limit
  rw [h1, h2, h3, h4, h5]
  exact ⟨rfl, rfl⟩

/-- C23: `dagmcnewcel_` sets `visited_surface` on every call, whether `next_vol`
succeeds or fails, and leaves the history and the other tracking fields as they are;
so a `dagmctrack_` that follows it with the stored particle id, an existing previous
surface and a direction that `==` finds equal to `last_uvw` takes the branch without
rollback: the history it hands to `ray_fire` is the stored one. -/
theorem newcel_always_marks_visited {D : Type} [DoubleOps D] (dag : DagMC D) (s : State D)
    (jsu icl iap : Int) (jsu2 nps : Int) (uuu vvv www : D)
    (hn : s.last_nps = nps) (hp : dag.entity_by_index 2 jsu2 ≠ 0)
    (h0 : DoubleOps.eq s.last_uvw.c0 uuu = true)
    (h1 : DoubleOps.eq s.last_uvw.c1 vvv = true)
    (h2 : DoubleOps.eq s.last_uvw.c2 www = true) :
    (dagmcnewcel_ dag s jsu icl iap).1.visited_surface = true ∧
    track_action (dagmcnewcel_ dag s jsu icl iap).1 (dag.entity_by_index 2 jsu2)
        uuu vvv www nps = TrackAction.keep ∧
    track_history (dagmcnewcel_ dag s jsu icl iap).1 (dag.entity_by_index 2 jsu2)
        uuu vvv www nps = s.history := by
  have hc : ¬ ((dagmcnewcel_ dag s jsu icl iap).1.last_nps ≠ nps
      ∨ dag.entity_by_index 2 jsu2 = 0) := by
    rintro (h | h)
    · exact h hn
    · exact hp h
  have ha : track_action (dagmcnewcel_ dag s jsu icl iap).1 (dag.entity_by_index 2 jsu2)
      uuu vvv www nps = TrackAction.keep := by
    unfold track_action
    rw [if_neg hc]
    have hd : (dagmcnewcel_ dag s jsu icl iap).1.last_uvw = s.last_uvw := rfl
    have hv : (dagmcnewcel_ dag s jsu icl iap).1.visited_surface = true := rfl
    rw [hd, hv]
    simp only [h0, h1, h2, Bool.and_self, if_true, Bool.not_true]
    rfl
  refine ⟨rfl, ha, ?_⟩
  rw [track_history_eq_action, ha]
  rfl

/-- Witness of C23: `next_vol` fails for surface 9 of the evaluation geometry; the
`dagmctrack_` of particle 5 that follows, along the stored direction `(1, 0, 0)` from
previous surface 11, is handed both recorded intersections. -/
theorem newcel_always_marks_visited_witness :
    ((demoDag.next_vol (demoDag.entity_by_index 2 9) (demoDag.entity_by_index 3 1) 0).1
        ≠ MB_SUCCESS ∧
      demoState.visited_surface = false ∧
      demoState.last_nps = 5 ∧ demoDag.entity_by_index 2 11 ≠ 0 ∧
      DoubleOps.eq demoState.last_uvw.c0 (IntDouble.num 1) = true ∧
      DoubleOps.eq demoState.last_uvw.c1 (IntDouble.num 0) = true ∧
      DoubleOps.eq demoState.last_uvw.c2 (IntDouble.num 0) = true) ∧
    (dagmcnewcel_ demoDag demoState 9 1 0).1.visited_surface = true ∧
    track_history (dagmcnewcel_ demoDag demoState 9 1 0).1 (demoDag.entity_by_index 2 11)
      (IntDouble.num 1) (IntDouble.num 0) (IntDouble.num 0) 5 = ⟨[11, 12]⟩ :=
  ⟨⟨by decide, rfl, rfl, by decide, rfl, rfl, rfl⟩,
   (newcel_always_marks_visited demoDag demoState 9 1 0 11 5 (IntDouble.num 1)
      (IntDouble.num 0) (IntDouble.num 0) rfl (by decide) rfl rfl rfl).1,
   (newcel_always_marks_visited demoDag demoState 9 1 0 11 5 (IntDouble.num 1)
      (IntDouble.num 0) (IntDouble.num 0) rfl (by decide) rfl rfl rfl).2.2.trans (by rfl)⟩

/-- C24: the statics `s1` left by `dagmc_bank_push_`, `dagmc_bank_usetop_`,
`dagmc_bank_pop_`, `dagmc_bank_clear_`, `dagmc_particle_terminate_`, or by a returning
`dagmc_savpar_` or `dagmc_getpar_`, hold the same `last_nps`, `last_uvw`,
`visited_surface`, `use_dist_limit` and `dist_limit` as before; so the decision block of
the next `dagmctrack_` takes the same branch, and passes the same limit, as it would
have without the call, and applies that branch to whatever history is current then. -/
theorem stored_ops_keep_decision {D : Type} [DoubleOps D] (s s1 : State D) (nbnk n : Int)
    (prev : EntityHandle) (uuu vvv www : D) (nps : Int)
    (h : s1 = dagmc_bank_push_ s nbnk ∨ s1 = dagmc_bank_usetop_ s
      ∨ s1 = dagmc_bank_pop_ s nbnk ∨ s1 = dagmc_bank_clear_ s
      ∨ s1 = dagmc_particle_terminate_ s ∨ dagmc_savpar_ s n = some s1
      ∨ dagmc_getpar_ s n = some s1) :
    same_tracking s s1 ∧
    track_action s1 prev uuu vvv www nps = track_action s prev uuu vvv www nps ∧
    track_limit s1 = track_limit s ∧
    track_history s1 prev uuu vvv www nps
      = (track_action s prev uuu vvv www nps).apply s1.history := by
  have hs : same_tracking s s1 := by
    rcases h with h | h | h | h | h | h | h
    · rw [h]
      exact ⟨rfl, rfl, rfl, rfl, rfl⟩
    · rw [h]
      have hf := bank_usetop_frame s
      exact ⟨hf.2.2.1, hf.2.2.2.1, hf.2.2.2.2.1, hf.2.2.2.2.2.1, hf.2.2.2.2.2.2⟩
    · rw [h]
      have hf := bank_pop_frame s nbnk
      exact ⟨hf.2.2.1, hf.2.2.2.1, hf.2.2.2.2.1, hf.2.2.2.2.2.1, hf.2.2.2.2.2.2⟩
    · rw [h]
      exact ⟨rfl, rfl, rfl, rfl, rfl⟩
    · rw [h]
      exact ⟨rfl, rfl, rfl, rfl, rfl⟩
    · obtain ⟨_, _, h1⟩ := savpar_returns s s1 n h
      rw [h1]
      exact ⟨rfl, rfl, rfl, rfl, rfl⟩
    · obtain ⟨hist, _, h1⟩ := getpar_returns s s1 n h
      rw [h1]
      exact ⟨rfl, rfl, rfl, rfl, rfl⟩
  have ha := track_action_of_same_tracking s s1 hs prev uuu vvv www nps
  refine ⟨hs, ha.1, ha.2, ?_⟩
  rw [track_history_eq_action, ha.1]

/-- Witness of C24: the bank of particle 5 holds the history `[77]` of another
particle; `dagmc_bank_usetop_` makes it current, and the next `dagmctrack_` along the
stored direction still takes the rollback branch, now on `[77]`. -/
theorem stored_ops_keep_decision_witness :
    (dagmc_bank_usetop_ { demoState with history_bank := [⟨[77]⟩] }).history = ⟨[77]⟩ ∧
    track_action { demoState with history_bank := [⟨[77]⟩] } 11 (IntDouble.num 1)
      (IntDouble.num 0) (IntDouble.num 0) 5 = TrackAction.rollback ∧
    track_action (dagmc_bank_usetop_ { demoState with history_bank := [⟨[77]⟩] }) 11
      (IntDouble.num 1) (IntDouble.num 0) (IntDouble.num 0) 5 = TrackAction.rollback ∧
    track_history (dagmc_bank_usetop_ { demoState with history_bank := [⟨[77]⟩] }) 11
      (IntDouble.num 1) (IntDouble.num 0) (IntDouble.num 0) 5 = ⟨[]⟩ :=
  ⟨rfl, rfl,
   (stored_ops_keep_decision { demoState with history_bank := [⟨[77]⟩] }
      (dagmc_bank_usetop_ { demoState with history_bank := [⟨[77]⟩] }) 0 0 11
      (IntDouble.num 1) (IntDouble.num 0) (IntDouble.num 0) 5
      (Or.inr (Or.inl rfl))).2.1.trans (by rfl),
   (stored_ops_keep_decision { demoState with history_bank := [⟨[77]⟩] }
      (dagmc_bank_usetop_ { demoState with history_bank := [⟨[77]⟩] }) 0 0 11
      (IntDouble.num 1) (IntDouble.num 0) (IntDouble.num 0) 5
      (Or.inr (Or.inl rfl))).2.2.2.trans (by rfl)⟩

/-! ## The tally cards of `write_lcad_old` -/

/-- When `cardstr` is longer than 72 characters and `rfind` answers 0, a pass of the
loop erases nothing, so the loop is still running after any number of passes. -/
theorem write_tally_card_stuck (cardstr : List Char) (hlen : cardstr.length > 72)
    (hpos : rfind cardstr (Char.ofNat 32) 72 = 0) :
    ∀ (fuel : Nat) (lcadfile : LcadFile), write_tally_card fuel lcadfile cardstr = none := by
  intro fuel
  induction fuel with
  | zero =>
    intro lcadfile
    simp only [write_tally_card, hlen, if_true]
  | succ k ih =>
    intro lcadfile
    simp only [write_tally_card, hlen, if_true, hpos, List.drop_zero]
    exact ih _

/-- C22 (the code at two failing inputs). First part: the card `f14:` with 75 letters
and the entity id 1 give an 83-character `cardstr` with no blank among its first 73
characters; `rfind` answers `npos`, the whole text and ` &` go out as one line of 85
characters, and the last line is the bare indent. Second part: the card `f14:n`, a
blank and 73 letters, with the entity id 1; after the first pass `cardstr` starts with
its only blank among the first 73 characters, `rfind` answers 0 and the loop never
ends. -/
theorem tally_card_wrap_fails :
    ((tally_card longCard [1]).length = 83 ∧
      rfind (tally_card longCard [1]) (Char.ofNat 32) 72 = npos ∧
      (write_tally_card 1 ⟨[], []⟩ (tally_card longCard [1])).map
          (fun f => f.lines.map List.length) = some [85, 5]) ∧
    (rfind (tally_card blankCard [1]) (Char.ofNat 32) 72 = 5 ∧
      rfind ((tally_card blankCard [1]).drop 5) (Char.ofNat 32) 72 = 0 ∧
      ∀ fuel : Nat, write_tally_card fuel ⟨[], []⟩ (tally_card blankCard [1]) = none) := by
  have hlen : (tally_card blankCard [1]).length > 72 := by decide
  have hp1 : rfind (tally_card blankCard [1]) (Char.ofNat 32) 72 = 5 := by decide
  have hlen2 : ((tally_card blankCard [1]).drop 5).length > 72 := by decide
  have hp2 : rfind ((tally_card blankCard [1]).drop 5) (Char.ofNat 32) 72 = 0 := by decide
  refine ⟨⟨by decide, by decide, by decide⟩, hp1, hp2, ?_⟩
  intro fuel
  cases fuel with
  | zero => simp only [write_tally_card, hlen, if_true]
  | succ k =>
    simp only [write_tally_card, hlen, if_true, hp1]
    exact write_tally_card_stuck _ hlen2 hp2 k _

end DagMcnp
